import Mathlib

/-
  Verification development for the address-resolution pipeline of the
  Ai.DataLabF25 repository (files data_work/01_geocode_addresses.py,
  data_work/01_retry_no_match.py, data_work/01_zip_fallback.py).

  Strings are modelled as `List Char` / `String`; pandas cells read with
  `dtype=str` are `Option String` (`none` = NaN).  Coordinate values are only
  ever passed through by the pipeline, so they are modelled as opaque
  `Option String` payloads.  The external geocoding / lookup services are
  modelled as oracle functions supplied as parameters; an exception raised by
  a service call is an explicit constructor of the oracle's result type.
-/

/-- Whitespace repertoire used by the model for Python's `str.strip` and the
regex class `\s`: space, tab, LF, CR, vertical tab, form feed, and U+00A0
(the non-breaking space that `clean_str` replaces).  The model restricts
Python's full Unicode whitespace set to this repertoire. -/
def isPySpace (c : Char) : Bool :=
  c = ' ' || c = '\t' || c = '\n' || c = '\r' ||
  c = Char.ofNat 11 || c = Char.ofNat 12 || c = Char.ofNat 160

/-- The non-breaking space U+00A0. -/
def nbspChar : Char := Char.ofNat 160

/-- Python `s.strip()`: drop leading and trailing whitespace. -/
def stripWS (l : List Char) : List Char :=
  ((l.dropWhile isPySpace).reverse.dropWhile isPySpace).reverse

/-- Helper for `squeezeWS`: prepend a single `' '` unless the list already
starts with one (so maximal whitespace runs collapse to one space). -/
def pushSp (r : List Char) : List Char :=
  if r.head? = some ' ' then r else ' ' :: r

/-- Python `re.sub(r"\s+", " ", s)`: every maximal run of whitespace becomes
a single `' '`. -/
def squeezeWS : List Char → List Char
  | [] => []
  | c :: cs => if isPySpace c then pushSp (squeezeWS cs) else c :: squeezeWS cs

/-- Python `s.replace(" ", " ")`. -/
def subNbsp (l : List Char) : List Char :=
  l.map (fun c => if c = nbspChar then ' ' else c)

/-- Core of `clean_str` from 01_geocode_addresses.py on an actual string:
`str(x).strip().replace(" ", " ")` followed by `re.sub(r"\s+", " ", s)`. -/
def cleanChars (l : List Char) : List Char :=
  squeezeWS (subNbsp (stripWS l))

/-- Function `clean_str` of 01_geocode_addresses.py: `pd.isna(x)` (modelled as
`none`) returns `""`; otherwise strip, replace NBSP, collapse whitespace. -/
def clean_str (x : Option String) : String :=
  match x with
  | none => ""
  | some s => String.mk (cleanChars s.toList)

-- ------------------- fixpoint lemmas for clean_str -------------------

lemma squeezeWS_cons_of_not {c : Char} (cs : List Char) (h : ¬ isPySpace c) :
    squeezeWS (c :: cs) = c :: squeezeWS cs := by
  simp [squeezeWS, h]

lemma squeezeWS_cons_of_ws {c : Char} (cs : List Char) (h : isPySpace c) :
    squeezeWS (c :: cs) = pushSp (squeezeWS cs) := by
  simp [squeezeWS, h]

lemma pushSp_ne_nil (r : List Char) : pushSp r ≠ [] := by
  unfold pushSp
  by_cases hd : r.head? = some ' '
  · rw [if_pos hd]
    intro h
    rw [h] at hd
    simp at hd
  · rw [if_neg hd]
    simp

lemma mem_pushSp {c : Char} {r : List Char} (h : c ∈ pushSp r) :
    c = ' ' ∨ c ∈ r := by
  unfold pushSp at h
  by_cases hd : r.head? = some ' '
  · rw [if_pos hd] at h; exact Or.inr h
  · rw [if_neg hd] at h
    rcases List.mem_cons.mp h with h | h
    · exact Or.inl h
    · exact Or.inr h

lemma squeezeWS_eq_nil_iff (l : List Char) : squeezeWS l = [] ↔ l = [] := by
  constructor
  · intro h
    rcases l with _ | ⟨a, as⟩
    · rfl
    · by_cases ha : isPySpace a
      · rw [squeezeWS_cons_of_ws as ha] at h
        exact absurd h (pushSp_ne_nil _)
      · rw [squeezeWS_cons_of_not as ha] at h
        exact absurd h (by simp)
  · intro h; subst h; rfl

lemma squeezeWS_ws_eq_space : ∀ (l : List Char), ∀ c ∈ squeezeWS l,
    isPySpace c → c = ' ' := by
  intro l
  induction l with
  | nil => intro c hc; simp [squeezeWS] at hc
  | cons a as ih =>
    intro c hc hws
    by_cases ha : isPySpace a
    · rw [squeezeWS_cons_of_ws as ha] at hc
      rcases mem_pushSp hc with h | h
      · exact h
      · exact ih c h hws
    · rw [squeezeWS_cons_of_not as ha] at hc
      rcases List.mem_cons.mp hc with hc | hc
      · subst hc; exact absurd hws ha
      · exact ih c hc hws

/-- Two adjacent characters of `squeezeWS l` are never both whitespace. -/
lemma squeezeWS_chain : ∀ (l : List Char),
    List.Chain' (fun a b => ¬(isPySpace a = true ∧ isPySpace b = true))
      (squeezeWS l) := by
  intro l
  induction l with
  | nil => simp [squeezeWS]
  | cons a as ih =>
    by_cases ha : isPySpace a
    · rw [squeezeWS_cons_of_ws as ha]
      rcases hr : squeezeWS as with _ | ⟨d, t⟩
      · simp [pushSp]
      · rw [hr] at ih
        by_cases hd : d = ' '
        · have : pushSp (d :: t) = d :: t := by
            unfold pushSp
            rw [if_pos (by simp [hd])]
          rw [this]; exact ih
        · have hdw : ¬ isPySpace d = true := by
            intro hw
            exact hd (squeezeWS_ws_eq_space as d (hr ▸ List.mem_cons_self d t) hw)
          have : pushSp (d :: t) = ' ' :: d :: t := by
            unfold pushSp
            rw [if_neg (by simp [hd])]
          rw [this, List.chain'_cons]
          exact ⟨fun hc => hdw hc.2, ih⟩
    · rw [squeezeWS_cons_of_not as ha]
      rcases hr : squeezeWS as with _ | ⟨d, t⟩
      · simp
      · rw [hr] at ih
        rw [List.chain'_cons]
        exact ⟨fun hc => ha hc.1, ih⟩

lemma squeezeWS_head_not_ws {l : List Char}
    (h : ∀ c, l.head? = some c → isPySpace c = false) :
    ∀ c, (squeezeWS l).head? = some c → isPySpace c = false := by
  rcases l with _ | ⟨a, as⟩
  · intro c hc; simp [squeezeWS] at hc
  · have ha : isPySpace a = false := h a rfl
    intro c hc
    rw [squeezeWS_cons_of_not as (by simp [ha])] at hc
    simp at hc
    subst hc; exact ha

lemma pushSp_getLast? {r : List Char} (h : r ≠ []) :
    (pushSp r).getLast? = r.getLast? := by
  unfold pushSp
  by_cases hd : r.head? = some ' '
  · rw [if_pos hd]
  · rw [if_neg hd]
    rcases r with _ | ⟨d, t⟩
    · exact absurd rfl h
    · rw [List.getLast?_cons_cons]

lemma squeezeWS_getLast_not_ws : ∀ (l : List Char),
    (∀ c, l.getLast? = some c → isPySpace c = false) →
    ∀ c, (squeezeWS l).getLast? = some c → isPySpace c = false := by
  intro l
  induction l with
  | nil => intro _ c hc; simp [squeezeWS] at hc
  | cons a as ih =>
    intro h c hc
    rcases as with _ | ⟨b, t⟩
    · have ha : isPySpace a = false := h a (by simp)
      rw [squeezeWS_cons_of_not [] (by simp [ha])] at hc
      simp [squeezeWS] at hc
      subst hc; exact ha
    · have h' : ∀ c, (b :: t).getLast? = some c → isPySpace c = false := by
        intro c hc'
        exact h c (by rw [List.getLast?_cons_cons]; exact hc')
      have hnil : squeezeWS (b :: t) ≠ [] := by
        intro hn
        exact absurd ((squeezeWS_eq_nil_iff _).mp hn) (by simp)
      by_cases ha : isPySpace a
      · rw [squeezeWS_cons_of_ws _ ha, pushSp_getLast? hnil] at hc
        exact ih h' c hc
      · rw [squeezeWS_cons_of_not _ ha] at hc
        rcases hq : squeezeWS (b :: t) with _ | ⟨d, t'⟩
        · exact absurd hq hnil
        · rw [hq, List.getLast?_cons_cons] at hc
          exact ih h' c (hq ▸ hc)

/-- If every whitespace character is `' '` and no two adjacent characters are
both whitespace, then `squeezeWS` leaves the list unchanged. -/
lemma squeezeWS_fix : ∀ (l : List Char),
    (∀ c ∈ l, isPySpace c → c = ' ') →
    List.Chain' (fun a b => ¬(isPySpace a = true ∧ isPySpace b = true)) l →
    squeezeWS l = l := by
  intro l
  induction l with
  | nil => intro _ _; rfl
  | cons a as ih =>
    intro hnorm hchain
    by_cases ha : isPySpace a
    · have ha' : a = ' ' := hnorm a (by simp) ha
      rcases as with _ | ⟨b, t⟩
      · subst ha'; rfl
      · have hb : ¬ isPySpace b = true := by
          intro hbw
          exact (List.chain'_cons.mp hchain).1 ⟨ha, hbw⟩
        have hrec : squeezeWS (b :: t) = b :: t := by
          refine ih (fun c hc hw => hnorm c (List.mem_cons_of_mem a hc) hw) ?_
          exact (List.chain'_cons.mp hchain).2
        rw [squeezeWS_cons_of_ws _ ha, hrec]
        subst ha'
        have hb' : b ≠ ' ' := by
          intro hbe; subst hbe; simp [isPySpace] at hb
        unfold pushSp
        rw [if_neg (by simp [hb'])]
    · rw [squeezeWS_cons_of_not as ha]
      congr 1
      refine ih (fun c hc hw => hnorm c (List.mem_cons_of_mem a hc) hw) ?_
      exact List.Chain'.tail hchain

lemma dropWhile_head_not {p : Char → Bool} : ∀ (l : List Char),
    ∀ c, (l.dropWhile p).head? = some c → p c = false := by
  intro l
  induction l with
  | nil => intro c hc; simp at hc
  | cons a as ih =>
    intro c hc
    by_cases ha : p a
    · rw [List.dropWhile_cons, if_pos ha] at hc
      exact ih c hc
    · rw [List.dropWhile_cons, if_neg ha] at hc
      simp at hc
      subst hc
      simpa using ha

lemma dropWhile_eq_self_of_head {p : Char → Bool} {l : List Char}
    (h : ∀ c, l.head? = some c → p c = false) : l.dropWhile p = l := by
  rcases l with _ | ⟨a, as⟩
  · rfl
  · rw [List.dropWhile_cons, if_neg (by rw [h a rfl]; simp)]

/-- A list whose first and last characters are not whitespace is unchanged by
`stripWS`. -/
lemma stripWS_fix {l : List Char}
    (hh : ∀ c, l.head? = some c → isPySpace c = false)
    (hl : ∀ c, l.getLast? = some c → isPySpace c = false) :
    stripWS l = l := by
  unfold stripWS
  rw [dropWhile_eq_self_of_head hh]
  rw [dropWhile_eq_self_of_head (by
    intro c hc
    rw [List.head?_reverse] at hc
    exact hl c hc)]
  exact List.reverse_reverse l

lemma subNbsp_eq_self : ∀ (l : List Char), (∀ c ∈ l, c ≠ nbspChar) →
    subNbsp l = l := by
  intro l
  induction l with
  | nil => intro _; rfl
  | cons a as ih =>
    intro h
    simp only [subNbsp, List.map_cons]
    rw [if_neg (h a (List.mem_cons_self a as))]
    congr 1
    exact ih (fun c hc => h c (List.mem_cons_of_mem a hc))

lemma stripWS_head_not_ws (l : List Char) :
    ∀ c, (stripWS l).head? = some c → isPySpace c = false := by
  intro c hc
  unfold stripWS at hc
  rw [List.head?_reverse] at hc
  -- last of `dropWhile ws (reverse (dropWhile ws l))` is the last of the
  -- whole reversed list, i.e. the head of `dropWhile ws l`, which fails `ws`.
  have hsuf : ((l.dropWhile isPySpace).reverse.dropWhile isPySpace) <:+
      (l.dropWhile isPySpace).reverse := List.dropWhile_suffix _
  rcases hsuf with ⟨pre, hpre⟩
  rcases hd : (l.dropWhile isPySpace).reverse.dropWhile isPySpace with _ | ⟨d, t⟩
  · rw [hd] at hc; simp at hc
  · rw [hd] at hpre hc
    have : (l.dropWhile isPySpace).reverse.getLast? = some c := by
      rw [← hpre, List.getLast?_append_of_ne_nil pre (show d :: t ≠ [] from by simp)]
      exact hc
    rw [List.getLast?_reverse] at this
    exact dropWhile_head_not l c this

lemma stripWS_getLast_not_ws (l : List Char) :
    ∀ c, (stripWS l).getLast? = some c → isPySpace c = false := by
  intro c hc
  unfold stripWS at hc
  rw [List.getLast?_reverse] at hc
  exact dropWhile_head_not _ c hc

lemma head_not_ws_subNbsp {l : List Char}
    (h : ∀ c, l.head? = some c → isPySpace c = false) :
    ∀ c, (subNbsp l).head? = some c → isPySpace c = false := by
  intro c hc
  unfold subNbsp at hc
  rw [List.head?_map] at hc
  rcases hh : l.head? with _ | d
  · rw [hh] at hc; simp at hc
  · rw [hh] at hc
    simp at hc
    have hd := h d hh
    have hdn : d ≠ nbspChar := by
      intro he; subst he; simp [isPySpace, nbspChar] at hd
    rw [if_neg hdn] at hc
    subst hc; exact hd

lemma getLast_not_ws_subNbsp {l : List Char}
    (h : ∀ c, l.getLast? = some c → isPySpace c = false) :
    ∀ c, (subNbsp l).getLast? = some c → isPySpace c = false := by
  intro c hc
  unfold subNbsp at hc
  rw [List.getLast?_map] at hc
  rcases hh : l.getLast? with _ | d
  · rw [hh] at hc; simp at hc
  · rw [hh] at hc
    simp at hc
    have hd := h d hh
    have hdn : d ≠ nbspChar := by
      intro he; subst he; simp [isPySpace, nbspChar] at hd
    rw [if_neg hdn] at hc
    subst hc; exact hd

/-- Applying the `clean_str` character pipeline twice is the same as applying
it once. -/
lemma cleanChars_idem (l : List Char) : cleanChars (cleanChars l) = cleanChars l := by
  set r := cleanChars l with hr
  have hnorm : ∀ c ∈ r, isPySpace c → c = ' ' := by
    intro c hc hw
    exact squeezeWS_ws_eq_space _ c hc hw
  have hchain : List.Chain' (fun a b => ¬(isPySpace a = true ∧ isPySpace b = true)) r :=
    squeezeWS_chain _
  have hhead : ∀ c, r.head? = some c → isPySpace c = false := by
    refine squeezeWS_head_not_ws ?_
    exact head_not_ws_subNbsp (stripWS_head_not_ws l)
  have hlast : ∀ c, r.getLast? = some c → isPySpace c = false := by
    refine squeezeWS_getLast_not_ws _ ?_
    exact getLast_not_ws_subNbsp (stripWS_getLast_not_ws l)
  have hnonbsp : ∀ c ∈ r, c ≠ nbspChar := by
    intro c hc he
    subst he
    have := hnorm _ hc (by simp [isPySpace, nbspChar])
    simp [nbspChar] at this
  show cleanChars r = r
  unfold cleanChars
  rw [stripWS_fix hhead hlast, subNbsp_eq_self r hnonbsp]
  exact squeezeWS_fix r hnorm hchain

-- ------------------- retry-stage canonicalization -------------------

/-- ASCII word characters: the model of the regex class `\w` (the pipeline's
address data is ASCII). -/
def isWordChar (c : Char) : Bool := c.isAlpha || c.isDigit || c = '_'

/-- ASCII lowercase letters, the regex class `[a-z]`. -/
def isAsciiLower (c : Char) : Bool := 'a' ≤ c && c ≤ 'z'

/-- ASCII uppercase letters, the regex class `[A-Z]`. -/
def isAsciiUpper (c : Char) : Bool := 'A' ≤ c && c ≤ 'Z'

/-- Case-insensitive match of the literal keyword `kw` at the head of `l`;
on success returns the characters after the keyword. -/
def matchCI : List Char → List Char → Option (List Char)
  | [], l => some l
  | _ :: _, [] => none
  | k :: ks, c :: cs => if k.toUpper = c.toUpper then matchCI ks cs else none

/-- Python `re.sub(r"([a-z])([A-Z])", r"\1 \2", s)`: left-to-right,
non-overlapping; after a match, scanning resumes after the uppercase
letter. -/
def camelSplit : List Char → List Char
  | a :: b :: rest =>
    if isAsciiLower a && isAsciiUpper b then a :: ' ' :: b :: camelSplit rest
    else a :: camelSplit (b :: rest)
  | l => l

/-- Function `clean_spaces` of 01_retry_no_match.py: collapse `\s+` runs to a
single space, strip, then insert a space at every lowercase-uppercase
adjacency (`CirCanton` → `Cir Canton`). -/
def clean_spaces (l : List Char) : List Char :=
  camelSplit (stripWS (squeezeWS l))

/-- Function `strip_leading_org` of 01_retry_no_match.py: re-clean and drop
everything before the first digit (`re.search(r"\d", s)`); if there is no
digit the string is returned unchanged. -/
def strip_leading_org (l : List Char) : List Char :=
  let s := clean_spaces l
  if s.any Char.isDigit then s.dropWhile (fun c => ! c.isDigit) else s

/-- Regex tail `\s*\w+` at the head of `l` (greedy, no backtracking is needed
because `\s` and `\w` are disjoint); on success returns the characters after
the match.  The trailing `\b` of the suite pattern always holds after a
maximal `\w+`. -/
def suiteTail (l : List Char) : Option (List Char) :=
  match l.dropWhile isPySpace with
  | c :: cs => if isWordChar c then some ((c :: cs).dropWhile isWordChar) else none
  | [] => none

/-- One attempt of `\b(?:STE|SUITE|UNIT|APT|#)\s*\w+\b` (flags `re.I`) at the
current position.  `prevWord` says whether the previous character of the
original string is a word character: the leading `\b` holds for the four
letter keywords iff `prevWord` is false, and for `#` (not a word character)
iff `prevWord` is true.  Alternatives are tried in the pattern's order. -/
def suiteMatch (prevWord : Bool) (l : List Char) : Option (List Char) :=
  let tryKw : String → Option (List Char) := fun kw =>
    if prevWord then none else (matchCI kw.toList l).bind suiteTail
  tryKw "STE" <|> tryKw "SUITE" <|> tryKw "UNIT" <|> tryKw "APT" <|>
    (if prevWord then (matchCI ['#'] l).bind suiteTail else none)

/-- Scanner for function `strip_suite` of 01_retry_no_match.py
(`re.sub(r"\b(?:STE|SUITE|UNIT|APT|#)\s*\w+\b", "", s, flags=re.I)`).
After a removed match the previous character of the original string is the
final character of `\w+`, a word character, so `prevWord` becomes true.
Every step consumes at least one character, so `fuel = length + 1` never
runs out. -/
def stripSuiteGo : Nat → Bool → List Char → List Char
  | 0, _, l => l
  | _ + 1, _, [] => []
  | fuel + 1, prevWord, c :: cs =>
    match suiteMatch prevWord (c :: cs) with
    | some rest => stripSuiteGo fuel true rest
    | none => c :: stripSuiteGo fuel (isWordChar c) cs

/-- Function `strip_suite` of 01_retry_no_match.py. -/
def strip_suite (l : List Char) : List Char :=
  stripSuiteGo (l.length + 1) false l

/-- The regex `\b` between the end of a matched keyword (whose last character
is a word character iff `endWord`) and the rest of the string. -/
def boundaryAfter (endWord : Bool) : List Char → Bool
  | [] => endWord
  | c :: _ => endWord != isWordChar c

/-- Scanner for one `re.sub(r"\b<kw>\b", repl, s, flags=re.I)` pass with a
literal keyword starting with a letter (so the leading `\b` requires the
previous character not to be a word character).  `kwEndWord` says whether the
keyword's final character is a word character (true for `PKWY`/`AVE`, false
for `RD.`/`ST.`), fixing the meaning of the trailing `\b`. -/
def subKwGo (kw repl : List Char) (kwEndWord : Bool) :
    Nat → Bool → List Char → List Char
  | 0, _, l => l
  | _ + 1, _, [] => []
  | fuel + 1, prevWord, c :: cs =>
    match (if prevWord then none else matchCI kw (c :: cs)) with
    | some rest =>
      if boundaryAfter kwEndWord rest then
        repl ++ subKwGo kw repl kwEndWord fuel kwEndWord rest
      else c :: subKwGo kw repl kwEndWord fuel (isWordChar c) cs
    | none => c :: subKwGo kw repl kwEndWord fuel (isWordChar c) cs

/-- One whole-string keyword substitution pass. -/
def subKw (kw repl : String) (kwEndWord : Bool) (l : List Char) : List Char :=
  subKwGo kw.toList repl.toList kwEndWord (l.length + 1) false l

/-- Function `expand_abbrev` of 01_retry_no_match.py: the four substitutions
`PKWY`→`PARKWAY`, `AVE`→`AVENUE`, `RD.`→`RD`, `ST.`→`ST`, in that order. -/
def expand_abbrev (l : List Char) : List Char :=
  subKw "ST." "ST" false
    (subKw "RD." "RD" false
      (subKw "AVE" "AVENUE" true
        (subKw "PKWY" "PARKWAY" true l)))

/-- Python `re.sub(r"\sGA,", ", GA,", s)` (case sensitive): a whitespace
character followed by the literal `GA,` becomes `, GA,`; scanning resumes
after the matched text. -/
def gaCommaSub : List Char → List Char
  | c :: 'G' :: 'A' :: ',' :: rest =>
    if isPySpace c then ',' :: ' ' :: 'G' :: 'A' :: ',' :: gaCommaSub rest
    else c :: gaCommaSub ('G' :: 'A' :: ',' :: rest)
  | c :: cs => c :: gaCommaSub cs
  | [] => []

/-- Python `re.sub(r"\sGA\s(\d{5})", r", GA, \1", s)`: whitespace, `GA`,
whitespace, five digits; the digits are kept in the replacement. -/
def gaZipSub : List Char → List Char
  | c1 :: 'G' :: 'A' :: c2 :: d1 :: d2 :: d3 :: d4 :: d5 :: rest =>
    if isPySpace c1 && isPySpace c2 && d1.isDigit && d2.isDigit &&
        d3.isDigit && d4.isDigit && d5.isDigit then
      ',' :: ' ' :: 'G' :: 'A' :: ',' :: ' ' ::
        d1 :: d2 :: d3 :: d4 :: d5 :: gaZipSub rest
    else c1 :: gaZipSub ('G' :: 'A' :: c2 :: d1 :: d2 :: d3 :: d4 :: d5 :: rest)
  | c :: cs => c :: gaZipSub cs
  | [] => []

/-- Function `ensure_commas` of 01_retry_no_match.py. -/
def ensure_commas (l : List Char) : List Char :=
  gaZipSub (gaCommaSub (clean_spaces l))

/-- Character-level pipeline of function `canonicalize_address` of
01_retry_no_match.py (`strip_leading_org` and `ensure_commas` re-apply
`clean_spaces` internally, exactly as in the source). -/
def canonChars (l : List Char) : List Char :=
  clean_spaces (ensure_commas (expand_abbrev (strip_suite (strip_leading_org (clean_spaces l)))))

/-- Function `canonicalize_address` of 01_retry_no_match.py. -/
def canonicalize_address (s : String) : String :=
  String.mk (canonChars s.toList)

-- ------------------- stage-1 helpers -------------------

/-- Python truthiness of an optional string: `None` and `""` are falsy. -/
def truthyStr : Option String → Bool
  | none => false
  | some s => s != ""

/-- Python `str(x)` applied to a pandas cell holding a string or NaN: NaN
prints as `"nan"`. -/
def pyStr (x : Option String) : String := x.getD "nan"

/-- Python `str.upper()` restricted to ASCII. -/
def pyUpper (l : List Char) : List Char := l.map Char.toUpper

/-- Whether `l` starts with the pattern `p`. -/
def startsWithChars : List Char → List Char → Bool
  | [], _ => true
  | _ :: _, [] => false
  | p :: ps, c :: cs => p = c && startsWithChars ps cs

/-- The PO-box test of `build_oneline`:
`p.upper().startswith(("PO BOX", "P.O. BOX"))`. -/
def isPoBox (p : List Char) : Bool :=
  startsWithChars "PO BOX".toList (pyUpper p) ||
    startsWithChars "P.O. BOX".toList (pyUpper p)

/-- Python `re.search(r"\d{5}", z)`: the leftmost five consecutive digits. -/
def firstFiveDigits : List Char → Option (List Char)
  | d1 :: d2 :: d3 :: d4 :: d5 :: rest =>
    if d1.isDigit && d2.isDigit && d3.isDigit && d4.isDigit && d5.isDigit then
      some [d1, d2, d3, d4, d5]
    else firstFiveDigits (d2 :: d3 :: d4 :: d5 :: rest)
  | _ => none

/-- Contribution of one address line to `build_oneline`'s `parts`: the
cleaned string, unless it is empty or is a PO box
(`if p and p.upper().startswith(...): continue; if p: parts.append(p)`). -/
def lineParts (p : Option String) : List String :=
  if clean_str p ≠ "" ∧ isPoBox (clean_str p).toList = false then [clean_str p]
  else []

/-- Contribution of the ZIP field: the first 5-digit group of the cleaned
string, when the cleaned string is non-empty and such a group exists. -/
def zipParts (zipcode : Option String) : List String :=
  if clean_str zipcode ≠ "" then
    match firstFiveDigits (clean_str zipcode).toList with
    | some m => [String.mk m]
    | none => []
  else []

/-- Components list assembled by function `build_oneline` of
01_geocode_addresses.py: address lines (PO boxes skipped), city if
non-empty, state (default `"GA"`), and the 5-digit ZIP if one is found. -/
def onelineParts (addr1 addr2 city state zipcode : Option String) : List String :=
  lineParts addr1 ++ lineParts addr2 ++
    (if clean_str city ≠ "" then [clean_str city] else []) ++
    [if clean_str state = "" then "GA" else clean_str state] ++
    zipParts zipcode

/-- Function `build_oneline` of 01_geocode_addresses.py:
`", ".join(parts)`. -/
def build_oneline (addr1 addr2 city state zipcode : Option String) : String :=
  String.intercalate ", " (onelineParts addr1 addr2 city state zipcode)

-- ------------------- C3: idempotence of normalization -------------------

/-- C3 counterexample: `canonicalize_address` is not idempotent.  On the
input `"1 GA,"` one application yields `"1, GA,"`, but `ensure_commas`
re-fires on that output (` GA,` → `, GA,`) and a second application yields
`"1,, GA,"`. -/
theorem canonicalize_address_not_idem :
    canonicalize_address (canonicalize_address "1 GA,") ≠
      canonicalize_address "1 GA," := by
  decide

/-- C3 (amended): `clean_str` is idempotent — applying it to its own output
returns that output unchanged — but `canonicalize_address` is not: there is
an input on which a second application changes the string again. -/
theorem clean_str_idem_canonicalize_not :
    (∀ x : Option String, clean_str (some (clean_str x)) = clean_str x) ∧
      (∃ s : String,
        canonicalize_address (canonicalize_address s) ≠ canonicalize_address s) := by
  constructor
  · intro x
    cases x with
    | none => rfl
    | some s =>
      show String.mk (cleanChars (String.mk (cleanChars s.toList)).toList) =
        String.mk (cleanChars s.toList)
      rw [show (String.mk (cleanChars s.toList)).toList = cleanChars s.toList from rfl]
      rw [cleanChars_idem]
  · exact ⟨"1 GA,", by decide⟩

-- ------------------- census geocoder data model -------------------

/-- One entry of the `Counties` list of a censusgeocode match; dict lookups
with `.get` give optional values. -/
structure County where
  GEOID : Option String
  NAME : Option String
deriving DecidableEq

/-- One entry of the `Census Tracts` list of a match. -/
structure Tract where
  STATE : Option String
  COUNTY : Option String
deriving DecidableEq

/-- The `geographies` dict of a match: a missing or `None` entry is the empty
list, matching `geos.get("Counties") or []`. -/
structure Geographies where
  Counties : List County
  CensusTracts : List Tract
deriving DecidableEq

/-- The `coordinates` dict of a match.  The numeric payloads are only passed
through by the pipeline, so they are modelled as opaque optional strings. -/
structure Coordinates where
  x : Option String
  y : Option String
deriving DecidableEq

/-- One address match returned by the census geocoder. -/
structure CGMatch where
  geographies : Geographies
  coordinates : Coordinates
deriving DecidableEq

/-- Result of one `cg.onelineaddress(addr)` call: the list of address matches
(the dict response `{"result": {"addressMatches": [...]}}` and a plain list
coincide after the unwrapping done at both call sites), or a raised
exception identified by its type name. -/
inductive SvcResult where
  | ok (ms : List CGMatch)
  | exn (exnName : String)

namespace GeocodeAddresses

/-- Function `cg_first_county` of 01_geocode_addresses.py: county FIPS, county
name, lat, lon from the first `Counties` entry, falling back to
`STATE + COUNTY` of the first `Census Tracts` entry.  (The source's
`if not match:` early return coincides with the branch in which both lists
are empty: an empty match dict reaches the same four-`None` result.) -/
def cg_first_county (m : CGMatch) :
    Option String × Option String × Option String × Option String :=
  match m.geographies.Counties with
  | c :: _ => (c.GEOID, c.NAME, m.coordinates.y, m.coordinates.x)
  | [] =>
    match m.geographies.CensusTracts with
    | t :: _ => (some ((t.STATE.getD "") ++ (t.COUNTY.getD "")), none,
        m.coordinates.y, m.coordinates.x)
    | [] => (none, none, none, none)

/-- One row of the stage-1 cache CSV / result frame, with exactly the columns
`oneline, county_fips, county_name, lat, lon, status`. -/
structure GeoRow where
  oneline : String
  county_fips : Option String
  county_name : Option String
  lat : Option String
  lon : Option String
  status : String
deriving DecidableEq

/-- Body of the stage-1 geocoding loop for one address
(01_geocode_addresses.py lines 141-162): `status` starts as `no_match`; a
non-empty match list yields `matched` iff the extracted FIPS is truthy,
otherwise `no_county`; an exception is caught and recorded as
`error:<ExceptionType>` with all-`None` fields. -/
def geocodeOne (svc : String → SvcResult) (addr : String) : GeoRow :=
  match svc addr with
  | .exn e => ⟨addr, none, none, none, none, "error:" ++ e⟩
  | .ok [] => ⟨addr, none, none, none, none, "no_match"⟩
  | .ok (m :: _) =>
    let r := cg_first_county m
    ⟨addr, r.1, r.2.1, r.2.2.1, r.2.2.2,
      if truthyStr r.1 then "matched" else "no_county"⟩

/-- `sorted(set(a for a in address_series if isinstance(a, str) and
a.strip()))`: non-string cells are `none`, and `a.strip()` is truthy iff the
string has a non-whitespace character. -/
def uniqueAddrs (series : List (Option String)) : List String :=
  (((series.filterMap id).filter
      (fun a => a.toList.any (fun c => ! isPySpace c))).dedup).mergeSort (· ≤ ·)

/-- The `done` set: addresses already present in the cache file. -/
def cacheOnelines (file : List GeoRow) : List String := file.map GeoRow.oneline

/-- `to_do = [a for a in unique if a not in done]`. -/
def toDoAddrs (series : List (Option String)) (file : List GeoRow) : List String :=
  (uniqueAddrs series).filter (fun a => ! (cacheOnelines file).contains a)

/-- State of the stage-1 loop: the cache-file contents and the in-memory
`rows` list not yet flushed. -/
structure GeoState where
  file : List GeoRow
  pending : List GeoRow
deriving DecidableEq

/-- The stage-1 batch loop (lines 141-170): each `to_do` address is geocoded
by exactly one service call, its row appended to `rows`, and when
`(i + 1) % save_every == 0` the pending rows are appended to the cache file
(`append_cache`) and `rows` reset. -/
def geocodeLoop (svc : String → SvcResult) (save_every : Nat) :
    List String → Nat → GeoState → GeoState
  | [], _, st => st
  | addr :: rest, i, st =>
    geocodeLoop svc save_every rest (i + 1)
      (if (i + 1) % save_every = 0 then
        ⟨st.file ++ (st.pending ++ [geocodeOne svc addr]), []⟩
      else
        ⟨st.file, st.pending ++ [geocodeOne svc addr]⟩)

/-- Function `geocode_addresses` of 01_geocode_addresses.py run with a cache
file: dedupe and sort the series, skip addresses already cached, run the
loop, flush the remaining rows, and return the full cache-file contents
(`load_cache(cache_path)`). -/
def geocode_addresses (svc : String → SvcResult) (series : List (Option String))
    (initFile : List GeoRow) (save_every : Nat) : List GeoRow :=
  let st := geocodeLoop svc save_every (toDoAddrs series initFile) 0 ⟨initFile, []⟩
  st.file ++ st.pending

/-- The cache-file contents after the first `j` addresses of `to_do` have
been processed. -/
def geocodeFileAfter (svc : String → SvcResult) (series : List (Option String))
    (initFile : List GeoRow) (save_every j : Nat) : List GeoRow :=
  (geocodeLoop svc save_every ((toDoAddrs series initFile).take j) 0
    ⟨initFile, []⟩).file

lemma geocodeLoop_total (svc : String → SvcResult) (k : Nat) :
    ∀ (td : List String) (i : Nat) (st : GeoState),
    (geocodeLoop svc k td i st).file ++ (geocodeLoop svc k td i st).pending =
      st.file ++ st.pending ++ td.map (geocodeOne svc) := by
  intro td
  induction td with
  | nil => intro i st; simp [geocodeLoop]
  | cons a rest ih =>
    intro i st
    by_cases h : (i + 1) % k = 0
    · simp only [geocodeLoop, if_pos h, List.map_cons]
      rw [ih]
      simp [List.append_assoc]
    · simp only [geocodeLoop, if_neg h, List.map_cons]
      rw [ih]
      simp [List.append_assoc]

lemma geocodeLoop_file_extend (svc : String → SvcResult) (k : Nat) :
    ∀ (td : List String) (i : Nat) (st : GeoState),
    ∃ t : List GeoRow, (geocodeLoop svc k td i st).file = st.file ++ t := by
  intro td
  induction td with
  | nil => intro i st; exact ⟨[], by simp [geocodeLoop]⟩
  | cons a rest ih =>
    intro i st
    by_cases h : (i + 1) % k = 0
    · simp only [geocodeLoop, if_pos h]
      rcases ih (i + 1) ⟨st.file ++ (st.pending ++ [geocodeOne svc a]), []⟩ with ⟨t, ht⟩
      exact ⟨st.pending ++ [geocodeOne svc a] ++ t, by rw [ht]; simp [List.append_assoc]⟩
    · simp only [geocodeLoop, if_neg h]
      exact ih (i + 1) ⟨st.file, st.pending ++ [geocodeOne svc a]⟩

lemma mod_succ_of_ne_zero {i k : Nat} (h : (i + 1) % k ≠ 0) :
    (i + 1) % k = i % k + 1 := by
  rcases Nat.eq_zero_or_pos k with hk0 | hkpos
  · subst hk0; simp
  · rcases Nat.lt_or_ge 1 k with hk1 | hk1
    · have h1 : (i + 1) % k = (i % k + 1) % k := by
        conv_lhs => rw [Nat.add_mod]
        rw [Nat.mod_eq_of_lt hk1]
      have hr : i % k < k := Nat.mod_lt _ hkpos
      rcases Nat.lt_or_ge (i % k + 1) k with hlt | hge
      · rw [h1, Nat.mod_eq_of_lt hlt]
      · have he : i % k + 1 = k := Nat.le_antisymm (Nat.succ_le_of_lt hr) hge
        rw [h1, he, Nat.mod_self] at h
        exact absurd rfl h
    · have hk1' : k = 1 := Nat.le_antisymm hk1 hkpos
      subst hk1'
      simp [Nat.mod_one] at h

lemma geocodeLoop_pending_len (svc : String → SvcResult) (k : Nat) :
    ∀ (td : List String) (i : Nat) (st : GeoState),
    st.pending.length = i % k →
    (geocodeLoop svc k td i st).pending.length = (i + td.length) % k := by
  intro td
  induction td with
  | nil => intro i st h; simpa [geocodeLoop] using h
  | cons a rest ih =>
    intro i st h
    by_cases hk : (i + 1) % k = 0
    · simp only [geocodeLoop, if_pos hk]
      have := ih (i + 1) ⟨st.file ++ (st.pending ++ [geocodeOne svc a]), []⟩
        (by simpa using hk.symm)
      simpa [Nat.add_comm, Nat.add_assoc, Nat.add_left_comm] using this
    · simp only [geocodeLoop, if_neg hk]
      have hlen : (st.pending ++ [geocodeOne svc a]).length = (i + 1) % k := by
        rw [List.length_append, h, List.length_singleton,
          mod_succ_of_ne_zero hk]
      have := ih (i + 1) ⟨st.file, st.pending ++ [geocodeOne svc a]⟩ hlen
      simpa [Nat.add_comm, Nat.add_assoc, Nat.add_left_comm] using this

lemma geocodeOne_oneline (svc : String → SvcResult) (addr : String) :
    (geocodeOne svc addr).oneline = addr := by
  unfold geocodeOne
  rcases svc addr with ms | e
  · rcases ms with _ | ⟨m, rest⟩ <;> rfl
  · rfl

lemma uniqueAddrs_nodup (series : List (Option String)) :
    (uniqueAddrs series).Nodup := by
  unfold uniqueAddrs
  exact (List.mergeSort_perm _ _).symm.nodup (List.nodup_dedup _)

lemma mem_uniqueAddrs {series : List (Option String)} {s : String}
    (hs : some s ∈ series) (hne : s.toList.any (fun c => ! isPySpace c)) :
    s ∈ uniqueAddrs series := by
  unfold uniqueAddrs
  refine (List.mergeSort_perm _ _).mem_iff.mpr ?_
  rw [List.mem_dedup, List.mem_filter]
  exact ⟨List.mem_filterMap.mpr ⟨some s, hs, rfl⟩, hne⟩

lemma toDoAddrs_nodup (series : List (Option String)) (file : List GeoRow) :
    (toDoAddrs series file).Nodup :=
  (uniqueAddrs_nodup series).filter _

lemma cached_not_mem_toDoAddrs {series : List (Option String)}
    {file : List GeoRow} {a : String} (h : a ∈ cacheOnelines file) :
    a ∉ toDoAddrs series file := by
  intro hmem
  unfold toDoAddrs at hmem
  have := (List.mem_filter.mp hmem).2
  simp at this
  exact absurd h this

lemma geocodeLoop_append (svc : String → SvcResult) (k : Nat) :
    ∀ (td₁ td₂ : List String) (i : Nat) (st : GeoState),
    geocodeLoop svc k (td₁ ++ td₂) i st =
      geocodeLoop svc k td₂ (i + td₁.length) (geocodeLoop svc k td₁ i st) := by
  intro td₁
  induction td₁ with
  | nil => intro td₂ i st; simp [geocodeLoop]
  | cons a rest ih =>
    intro td₂ i st
    show geocodeLoop svc k (a :: (rest ++ td₂)) i st = _
    simp only [geocodeLoop]
    rw [ih]
    congr 1
    simp [Nat.add_comm, Nat.add_assoc, Nat.add_left_comm]

/-- C6: in the first geocoding stage, given a non-exceptional service
response, the recorded status is `matched` exactly when a (truthy) county
FIPS is extracted from the first address match, in which case the extracted
FIPS, name, lat and lon are the recorded fields; it is `no_county` when a
match came back but no truthy FIPS could be extracted, and `no_match` when
the service returned no matches. -/
theorem geocodeOne_status_spec (svc : String → SvcResult) (addr : String)
    (ms : List CGMatch) (h : svc addr = SvcResult.ok ms) :
    (ms = [] →
      geocodeOne svc addr = ⟨addr, none, none, none, none, "no_match"⟩) ∧
    (∀ m rest, ms = m :: rest →
      ((geocodeOne svc addr).status = "matched" ↔
        truthyStr (cg_first_county m).1 = true) ∧
      ((geocodeOne svc addr).status = "no_county" ↔
        truthyStr (cg_first_county m).1 = false) ∧
      geocodeOne svc addr = ⟨addr, (cg_first_county m).1, (cg_first_county m).2.1,
        (cg_first_county m).2.2.1, (cg_first_county m).2.2.2,
        if truthyStr (cg_first_county m).1 then "matched" else "no_county"⟩) := by
  constructor
  · intro he
    subst he
    unfold geocodeOne
    rw [h]
  · intro m rest he
    subst he
    have hrow : geocodeOne svc addr = ⟨addr, (cg_first_county m).1,
        (cg_first_county m).2.1, (cg_first_county m).2.2.1,
        (cg_first_county m).2.2.2,
        if truthyStr (cg_first_county m).1 then "matched" else "no_county"⟩ := by
      unfold geocodeOne
      rw [h]
    have hst : (geocodeOne svc addr).status =
        (if truthyStr (cg_first_county m).1 then "matched" else "no_county") := by
      rw [hrow]
    refine ⟨?_, ?_, hrow⟩
    · cases hc : truthyStr (cg_first_county m).1
      · rw [hc] at hst
        simp only [Bool.false_eq_true, if_false] at hst
        rw [hst]
        decide
      · rw [hc] at hst
        simp only [if_true] at hst
        rw [hst]
        decide
    · cases hc : truthyStr (cg_first_county m).1
      · rw [hc] at hst
        simp only [Bool.false_eq_true, if_false] at hst
        rw [hst]
        decide
      · rw [hc] at hst
        simp only [if_true] at hst
        rw [hst]
        decide

/-- C6 witness: a concrete service returning one match with county GEOID
`13121` produces a `matched` row carrying that FIPS. -/
theorem geocodeOne_status_spec_witness :
    (geocodeOne (fun _ => SvcResult.ok
        [⟨⟨[⟨some "13121", some "Fulton County"⟩], []⟩, ⟨some "-84.4", some "33.7"⟩⟩])
      "A").status = "matched" :=
  ((geocodeOne_status_spec
      (fun _ => SvcResult.ok
        [⟨⟨[⟨some "13121", some "Fulton County"⟩], []⟩, ⟨some "-84.4", some "33.7"⟩⟩])
      "A" _ rfl).2 _ [] rfl).1.mpr (by decide)

lemma map_oneline_map_geocodeOne (svc : String → SvcResult) (td : List String) :
    (td.map (geocodeOne svc)).map GeoRow.oneline = td := by
  rw [List.map_map]
  have h : ∀ a ∈ td, (GeoRow.oneline ∘ geocodeOne svc) a = id a := by
    intro a _
    exact geocodeOne_oneline svc a
  rw [List.map_congr_left h, List.map_id]

/-- C7: with a cache file, `geocode_addresses` returns the final cache-file
contents: the pre-existing cached rows followed by one freshly geocoded row
per `to_do` address; every unique non-empty string of the input series has a
row (cached or fresh); and after the first `j` addresses the cache file
already holds the first `j - j % save_every` new rows — the flushed batches —
so at most `save_every - 1` recent rows are ever unflushed.  (The returned
rows have exactly the fields `oneline, county_fips, county_name, lat, lon,
status` by the definition of `GeoRow`.) -/
theorem geocode_addresses_spec (svc : String → SvcResult)
    (series : List (Option String)) (initFile : List GeoRow) (k : Nat) :
    geocode_addresses svc series initFile k =
      initFile ++ (toDoAddrs series initFile).map (geocodeOne svc) ∧
    (∀ s : String, some s ∈ series → s.toList.any (fun c => ! isPySpace c) →
      s ∈ (geocode_addresses svc series initFile k).map GeoRow.oneline) ∧
    (∀ j, j ≤ (toDoAddrs series initFile).length →
      geocodeFileAfter svc series initFile k j =
        initFile ++
          ((toDoAddrs series initFile).map (geocodeOne svc)).take (j - j % k)) := by
  have htotal : geocode_addresses svc series initFile k =
      initFile ++ (toDoAddrs series initFile).map (geocodeOne svc) := by
    unfold geocode_addresses
    rw [geocodeLoop_total]
    simp
  refine ⟨htotal, ?_, ?_⟩
  · intro s hs hne
    rw [htotal, List.map_append, map_oneline_map_geocodeOne]
    have hu := mem_uniqueAddrs hs hne
    by_cases hc : (cacheOnelines initFile).contains s
    · refine List.mem_append.mpr (Or.inl ?_)
      show s ∈ cacheOnelines initFile
      simpa using hc
    · refine List.mem_append.mpr (Or.inr ?_)
      unfold toDoAddrs
      rw [List.mem_filter]
      exact ⟨hu, by simpa using hc⟩
  · intro j hj
    unfold geocodeFileAfter
    set td := toDoAddrs series initFile with htd
    set lp := geocodeLoop svc k (td.take j) 0 ⟨initFile, []⟩ with hlp
    have hT : lp.file ++ lp.pending = initFile ++ (td.take j).map (geocodeOne svc) := by
      rw [hlp, geocodeLoop_total]
      simp
    have hlen_take : (td.take j).length = j := by
      rw [List.length_take]
      exact Nat.min_eq_left hj
    have hP : lp.pending.length = j % k := by
      rw [hlp]
      have := geocodeLoop_pending_len svc k (td.take j) 0 ⟨initFile, []⟩ (by simp)
      rw [hlen_take] at this
      simpa using this
    have hlen : lp.file.length + lp.pending.length =
        initFile.length + j := by
      have h2 := congrArg List.length hT
      rw [List.length_append, List.length_append, List.length_map,
        hlen_take] at h2
      exact h2
    have hmodle : j % k ≤ j := Nat.mod_le j k
    have hfl : lp.file.length = initFile.length + (j - j % k) := by
      rw [hP] at hlen
      omega
    have hfile : lp.file = (lp.file ++ lp.pending).take lp.file.length := by
      rw [List.take_left]
    rw [hfile, hT, hfl, List.take_append_eq_append_take,
      List.take_of_length_le (Nat.le_add_right _ _)]
    congr 1
    have harith : initFile.length + (j - j % k) - initFile.length = j - j % k := by
      omega
    rw [harith, List.map_take, List.take_take,
      Nat.min_eq_left (Nat.sub_le j (j % k))]

/-- C7 witness: a one-address series over an empty cache with
`save_every = 1`: the result is the single fresh row, the input address has a
row, and after one step the file already holds it. -/
theorem geocode_addresses_spec_witness :
    geocode_addresses (fun _ => SvcResult.ok []) [some "A"] [] 1 =
      [⟨"A", none, none, none, none, "no_match"⟩] ∧
    "A" ∈ (geocode_addresses (fun _ => SvcResult.ok []) [some "A"] [] 1).map
      GeoRow.oneline ∧
    geocodeFileAfter (fun _ => SvcResult.ok []) [some "A"] [] 1 1 =
      [⟨"A", none, none, none, none, "no_match"⟩] := by
  have htd : toDoAddrs [some "A"] [] = ["A"] := by
    show (uniqueAddrs [some "A"]).filter _ = _
    rw [show uniqueAddrs [some "A"] = List.mergeSort ["A"] (· ≤ ·) from rfl,
      List.mergeSort_singleton]
    rfl
  have h := geocode_addresses_spec (fun _ => SvcResult.ok []) [some "A"] [] 1
  refine ⟨?_, h.2.1 "A" (by decide) (by decide), ?_⟩
  · rw [h.1, htd]
    rfl
  · rw [h.2.2 1 (by rw [htd]; decide), htd]
    rfl

end GeocodeAddresses

namespace RetryNoMatch

/-- Function `cg_first_county` of 01_retry_no_match.py: unlike the stage-1
version there is no tract fallback; an empty `Counties` list gives four
`None`s, otherwise GEOID, NAME, lat (`coordinates.y`), lon
(`coordinates.x`) of the first entry. -/
def cg_first_county (m : CGMatch) :
    Option String × Option String × Option String × Option String :=
  match m.geographies.Counties with
  | [] => (none, none, none, none)
  | c :: _ => (c.GEOID, c.NAME, m.coordinates.y, m.coordinates.x)

/-- One checkpoint value `[fips, name, lat, lon, status]`. -/
structure RVal where
  fips : Option String
  name : Option String
  lat : Option String
  lon : Option String
  status : String
deriving DecidableEq

/-- The `if res:` body of the attempt loop (lines 90-92): an empty match list
keeps the current status (the loop then breaks without touching it); a
non-empty list records `matched` iff the extracted FIPS is truthy and
`no_match` otherwise (this stage never writes `no_county`). -/
def okRow (ms : List CGMatch) (status : String) : RVal :=
  match ms with
  | [] => ⟨none, none, none, none, status⟩
  | m :: _ =>
    let r := cg_first_county m
    ⟨r.1, r.2.1, r.2.2.1, r.2.2.2,
      if truthyStr r.1 then "matched" else "no_match"⟩

/-- The attempt loop of `geocode_unique` (lines 85-99) for one address:
`svc t` is the result of the `t`-th `cg.onelineaddress` call; `status` is the
current status variable (initially `no_match`).  A response breaks the loop;
an exception sets `error:<ExceptionType>` and retries while attempts remain.
The second component counts the network calls made. -/
def runAttempts (svc : Nat → SvcResult) : Nat → Nat → String → RVal × Nat
  | attempt, 0, status =>
    (match svc attempt with
      | .ok ms => okRow ms status
      | .exn e => ⟨none, none, none, none, "error:" ++ e⟩, 1)
  | attempt, rem + 1, status =>
    match svc attempt with
    | .ok ms => (okRow ms status, 1)
    | .exn e =>
      let p := runAttempts svc (attempt + 1) rem ("error:" ++ e)
      (p.1, p.2 + 1)

/-- Keys of the JSON checkpoint dict (insertion order). -/
def ckKeys (cache : List (String × RVal)) : List String := cache.map Prod.fst

/-- Dict lookup `cache.get(addr)` (also the `addr_map` application in
`retry_file`). -/
def ckLookup (cache : List (String × RVal)) (a : String) : Option RVal :=
  (cache.find? (fun p => p.1 == a)).map Prod.snd

/-- The loop of `geocode_unique` (lines 80-105): addresses already in the
checkpoint are skipped (`if addr in cache: continue`); otherwise the attempt
loop runs (`svc a t` is attempt `t` for address `a`) and the result is stored
under the address key (a new dict key appends in insertion order).  The
accumulators also record which addresses were queried over the network and
the total number of network calls. -/
def geocodeUniqueGo (svc : String → Nat → SvcResult) (maxRetries : Nat) :
    List String → List (String × RVal) → List String → Nat →
      List (String × RVal) × List String × Nat
  | [], cache, queried, calls => (cache, queried, calls)
  | a :: rest, cache, queried, calls =>
    if (ckKeys cache).contains a then
      geocodeUniqueGo svc maxRetries rest cache queried calls
    else
      geocodeUniqueGo svc maxRetries rest
        (cache ++ [(a, (runAttempts (svc a) 0 maxRetries "no_match").1)])
        (queried ++ [a]) (calls + (runAttempts (svc a) 0 maxRetries "no_match").2)

/-- Function `geocode_unique` of 01_retry_no_match.py (default
`max_retries=2`): returns the final checkpoint dict (the periodic
`save_checkpoint` calls rewrite this same dict) together with the queried
addresses and the network-call count. -/
def geocode_unique (svc : String → Nat → SvcResult) (maxRetries : Nat)
    (addresses : List String) (cache : List (String × RVal)) :
    List (String × RVal) × List String × Nat :=
  geocodeUniqueGo svc maxRetries addresses cache [] 0

/-- One row of np_geocoded.csv / phys_geocoded.csv read with `dtype=str`:
the identifier column (`np_id` / `phy_id`) plus
`oneline, county_fips, county_name, lat, lon, status`. -/
structure RRow where
  row_id : Option String
  oneline : Option String
  county_fips : Option String
  county_name : Option String
  lat : Option String
  lon : Option String
  status : Option String
deriving DecidableEq

/-- The `miss_mask` of `retry_file`:
`~(df["status"].fillna("").eq("matched"))`. -/
def missRow (r : RRow) : Bool := ! ((r.status.getD "") == "matched")

/-- `pd.Series.unique`: first occurrence of every value, in order.  Fuel
(`length` suffices) keeps the recursion structural. -/
def uniqueFirstGo : Nat → List String → List String
  | 0, l => l
  | _ + 1, [] => []
  | fuel + 1, a :: rest =>
    a :: uniqueFirstGo fuel (rest.filter (fun b => ! (b == a)))

/-- First-occurrence deduplication, as `pd.Series.unique`. -/
def uniqueFirst (l : List String) : List String := uniqueFirstGo l.length l

/-- STEPS 2-3 of `retry_file` for one unmatched row: the geocode result of
the canonicalized `oneline` (NaN prints as `"nan"` under `str`) is looked up
in `addr_map`; when its status is `matched` the five columns take the new
values, otherwise the originals are kept (a missing dict value maps to `None`
fields and status `no_match`, which also keeps the originals). -/
def retryUpdateRow (addrMap : List (String × RVal)) (r : RRow) : RRow :=
  match ckLookup addrMap (canonicalize_address (pyStr r.oneline)) with
  | some v =>
    if v.status == "matched" then
      { r with county_fips := v.fips, county_name := v.name,
               lat := v.lat, lon := v.lon, status := some v.status }
    else r
  | none => r

/-- The `addr_map` built by `retry_file`: geocode results for the unique
canonicalized addresses of the unmatched rows, on top of the stage
checkpoint. -/
def retryAddrMap (svc : String → Nat → SvcResult) (maxRetries : Nat)
    (df : List RRow) (ckpt : List (String × RVal)) : List (String × RVal) :=
  (geocode_unique svc maxRetries
    (uniqueFirst ((df.filter missRow).map
      (fun r => canonicalize_address (pyStr r.oneline)))) ckpt).1

/-- Function `retry_file` of 01_retry_no_match.py: rows already matched are
written back as-is; unmatched rows are re-geocoded through `addr_map` and
stitched after them (`pd.concat([df[~miss_mask], miss[df.columns]])`).  When
there is nothing to retry the input is written back unchanged. -/
def retry_file (svc : String → Nat → SvcResult) (maxRetries : Nat)
    (df : List RRow) (ckpt : List (String × RVal)) : List RRow :=
  let miss := df.filter missRow
  if miss.isEmpty then df
  else
    df.filter (fun r => ! missRow r) ++
      miss.map (retryUpdateRow (retryAddrMap svc maxRetries df ckpt))

end RetryNoMatch

namespace RetryNoMatch

lemma ckLookup_eq_none_iff (cache : List (String × RVal)) (a : String) :
    ckLookup cache a = none ↔ a ∉ ckKeys cache := by
  unfold ckLookup ckKeys
  rw [Option.map_eq_none', List.find?_eq_none]
  constructor
  · intro h hmem
    rcases List.mem_map.mp hmem with ⟨p, hp, hpa⟩
    exact h p hp (by simp [hpa])
  · intro h p hp hpa
    exact h (List.mem_map.mpr ⟨p, hp, by simpa using hpa⟩)

lemma mem_keys_exists_lookup : ∀ (cache : List (String × RVal)) (a : String),
    a ∈ ckKeys cache → ∃ v, ckLookup cache a = some v := by
  intro cache a h
  rcases hl : ckLookup cache a with _ | v
  · exact absurd h ((ckLookup_eq_none_iff cache a).mp hl)
  · exact ⟨v, rfl⟩

lemma ckLookup_append_some {cache₁ cache₂ : List (String × RVal)} {a : String}
    {v : RVal} (h : ckLookup cache₁ a = some v) :
    ckLookup (cache₁ ++ cache₂) a = some v := by
  unfold ckLookup at h ⊢
  rw [List.find?_append]
  rcases hf : cache₁.find? (fun p => p.1 == a) with _ | p
  · rw [hf] at h; simp at h
  · rw [hf] at h
    rw [hf]
    exact h

lemma ckLookup_append_right {cache : List (String × RVal)} {a : String}
    (h : a ∉ ckKeys cache) (l₂ : List (String × RVal)) :
    ckLookup (cache ++ l₂) a = ckLookup l₂ a := by
  have hf : ckLookup cache a = none := (ckLookup_eq_none_iff cache a).mpr h
  unfold ckLookup at hf ⊢
  rw [Option.map_eq_none'] at hf
  rw [List.find?_append, hf]
  rfl

lemma ckKeys_append (cache : List (String × RVal)) (p : String × RVal) :
    ckKeys (cache ++ [p]) = ckKeys cache ++ [p.1] := by
  unfold ckKeys
  rw [List.map_append]
  rfl

lemma runAttempts_calls_le (svc : Nat → SvcResult) :
    ∀ (rem attempt : Nat) (st : String),
    (runAttempts svc attempt rem st).2 ≤ rem + 1 := by
  intro rem
  induction rem with
  | zero =>
    intro attempt st
    unfold runAttempts
    rcases svc attempt with ms | e <;> simp
  | succ r ih =>
    intro attempt st
    unfold runAttempts
    rcases svc attempt with ms | e
    · simp
    · simp only []
      have := ih (attempt + 1) ("error:" ++ e)
      omega

lemma geocodeUniqueGo_lookup_mono (svc : String → Nat → SvcResult) (mr : Nat) :
    ∀ (addresses : List String) (cache : List (String × RVal))
      (q : List String) (c : Nat) (a : String) (v : RVal),
    ckLookup cache a = some v →
    ckLookup (geocodeUniqueGo svc mr addresses cache q c).1 a = some v := by
  intro addresses
  induction addresses with
  | nil => intro cache q c a v h; exact h
  | cons b rest ih =>
    intro cache q c a v h
    unfold geocodeUniqueGo
    by_cases hb : (ckKeys cache).contains b
    · rw [if_pos hb]
      exact ih cache q c a v h
    · rw [if_neg hb]
      exact ih _ _ _ a v (ckLookup_append_some h)

lemma geocodeUniqueGo_keys_superset (svc : String → Nat → SvcResult) (mr : Nat) :
    ∀ (addresses : List String) (cache : List (String × RVal))
      (q : List String) (c : Nat) (a : String),
    (a ∈ ckKeys cache ∨ a ∈ addresses) →
    a ∈ ckKeys (geocodeUniqueGo svc mr addresses cache q c).1 := by
  intro addresses
  induction addresses with
  | nil =>
    intro cache q c a h
    rcases h with h | h
    · exact h
    · simp at h
  | cons b rest ih =>
    intro cache q c a h
    unfold geocodeUniqueGo
    by_cases hb : (ckKeys cache).contains b
    · rw [if_pos hb]
      rcases h with h | h
      · exact ih cache q c a (Or.inl h)
      · rcases List.mem_cons.mp h with rfl | h
        · exact ih cache q c a (Or.inl (by simpa using hb))
        · exact ih cache q c a (Or.inr h)
    · rw [if_neg hb]
      rcases h with h | h
      · refine ih _ _ _ a (Or.inl ?_)
        rw [ckKeys_append]
        exact List.mem_append.mpr (Or.inl h)
      · rcases List.mem_cons.mp h with rfl | h
        · refine ih _ _ _ a (Or.inl ?_)
          rw [ckKeys_append]
          exact List.mem_append.mpr (Or.inr (by simp))
        · exact ih _ _ _ a (Or.inr h)

lemma geocodeUniqueGo_queried_spec (svc : String → Nat → SvcResult) (mr : Nat) :
    ∀ (addresses : List String) (cache : List (String × RVal))
      (q : List String) (c : Nat),
    ∃ nq : List String,
      (geocodeUniqueGo svc mr addresses cache q c).2.1 = q ++ nq ∧
      nq.Nodup ∧ (∀ a ∈ nq, a ∉ ckKeys cache) ∧
      (geocodeUniqueGo svc mr addresses cache q c).2.2 ≤
        c + nq.length * (mr + 1) := by
  intro addresses
  induction addresses with
  | nil =>
    intro cache q c
    exact ⟨[], by simp [geocodeUniqueGo], List.nodup_nil, by simp, by simp [geocodeUniqueGo]⟩
  | cons b rest ih =>
    intro cache q c
    unfold geocodeUniqueGo
    by_cases hb : (ckKeys cache).contains b
    · rw [if_pos hb]
      exact ih cache q c
    · rw [if_neg hb]
      rcases ih (cache ++ [(b, (runAttempts (svc b) 0 mr "no_match").1)])
        (q ++ [b]) (c + (runAttempts (svc b) 0 mr "no_match").2) with
        ⟨nq, hq, hnd, hdisj, hcalls⟩
      have hbk : b ∈ ckKeys (cache ++ [(b, (runAttempts (svc b) 0 mr "no_match").1)]) := by
        rw [ckKeys_append]
        exact List.mem_append.mpr (Or.inr (by simp))
      refine ⟨b :: nq, ?_, ?_, ?_, ?_⟩
      · rw [hq, List.append_assoc]
        rfl
      · rw [List.nodup_cons]
        exact ⟨fun hmem => (hdisj b hmem) hbk, hnd⟩
      · intro a ha
        rcases List.mem_cons.mp ha with rfl | ha
        · simpa using hb
        · intro hak
          exact (hdisj a ha) (by rw [ckKeys_append]; exact List.mem_append.mpr (Or.inl hak))
      · have hn := runAttempts_calls_le (svc b) mr 0 "no_match"
        have : nq.length * (mr + 1) + (mr + 1) = (nq.length + 1) * (mr + 1) := by ring
        simp only [List.length_cons]
        omega

end RetryNoMatch

/-- The catalogue of status strings the pipeline records: `matched`,
`no_match`, `no_county`, or `error:` followed by an exception type name. -/
def allowedStatus (s : String) : Prop :=
  s = "matched" ∨ s = "no_match" ∨ s = "no_county" ∨ ∃ e, s = "error:" ++ e

namespace RetryNoMatch

lemma okRow_status_allowed (ms : List CGMatch) (st : String)
    (h : allowedStatus st) : allowedStatus (okRow ms st).status := by
  rcases ms with _ | ⟨m, rest⟩
  · exact h
  · unfold okRow
    by_cases ht : truthyStr (cg_first_county m).1
    · simp only [ht, if_true]
      exact Or.inl rfl
    · simp only [ht, if_false]
      exact Or.inr (Or.inl rfl)

lemma runAttempts_status_allowed (svc : Nat → SvcResult) :
    ∀ (rem attempt : Nat) (st : String), allowedStatus st →
    allowedStatus (runAttempts svc attempt rem st).1.status := by
  intro rem
  induction rem with
  | zero =>
    intro attempt st h
    unfold runAttempts
    rcases svc attempt with ms | e
    · exact okRow_status_allowed ms st h
    · exact Or.inr (Or.inr (Or.inr ⟨e, rfl⟩))
  | succ r ih =>
    intro attempt st h
    unfold runAttempts
    rcases svc attempt with ms | e
    · exact okRow_status_allowed ms st h
    · exact ih (attempt + 1) ("error:" ++ e) (Or.inr (Or.inr (Or.inr ⟨e, rfl⟩)))

lemma geocodeUniqueGo_new_allowed (svc : String → Nat → SvcResult) (mr : Nat) :
    ∀ (addresses : List String) (cache : List (String × RVal))
      (q : List String) (c : Nat) (a : String),
    a ∈ addresses → a ∉ ckKeys cache →
    ∃ v, ckLookup (geocodeUniqueGo svc mr addresses cache q c).1 a = some v ∧
      allowedStatus v.status := by
  intro addresses
  induction addresses with
  | nil => intro cache q c a ha _; simp at ha
  | cons b rest ih =>
    intro cache q c a ha hnk
    unfold geocodeUniqueGo
    by_cases hb : (ckKeys cache).contains b
    · rw [if_pos hb]
      rcases List.mem_cons.mp ha with rfl | ha
      · exact absurd (by simpa using hb) hnk
      · exact ih cache q c a ha hnk
    · rw [if_neg hb]
      by_cases hab : a = b
      · subst hab
        have hone : ckLookup (cache ++ [(a, (runAttempts (svc a) 0 mr "no_match").1)]) a =
            some (runAttempts (svc a) 0 mr "no_match").1 := by
          rw [ckLookup_append_right hnk]
          unfold ckLookup
          simp
        refine ⟨(runAttempts (svc a) 0 mr "no_match").1,
          geocodeUniqueGo_lookup_mono svc mr rest _ _ _ a _ hone, ?_⟩
        exact runAttempts_status_allowed (svc a) mr 0 "no_match" (Or.inr (Or.inl rfl))
      · rcases List.mem_cons.mp ha with rfl | ha
        · exact absurd rfl hab
        · refine ih _ _ _ a ha ?_
          rw [ckKeys_append]
          intro hmem
          rcases List.mem_append.mp hmem with h | h
          · exact hnk h
          · simp at h
            exact hab h

lemma geocodeUniqueGo_covers (svc : String → Nat → SvcResult) (mr : Nat)
    (addresses : List String) (cache : List (String × RVal))
    (q : List String) (c : Nat) (a : String) (ha : a ∈ addresses) :
    ∃ v, ckLookup (geocodeUniqueGo svc mr addresses cache q c).1 a = some v :=
  mem_keys_exists_lookup _ a
    (geocodeUniqueGo_keys_superset svc mr addresses cache q c a (Or.inr ha))

end RetryNoMatch

-- ------------------- C1, C2, C8 -------------------

/-- C1 counterexample: in the retry stage, one never-cached address can
trigger two geocoding network calls in a single run — the first attempt
raises, the backoff loop issues a second call (`max_retries=2` allows up to
three).  Here the queried-address list is just `["A"]` yet the network-call
count is 2, refuting "each unique address triggers at most one geocoding
network call per run". -/
theorem geocode_unique_two_calls_for_one_address :
    (RetryNoMatch.geocode_unique
        (fun _ t => if t = 0 then SvcResult.exn "Timeout" else SvcResult.ok [])
        2 ["A"] []).2.1 = ["A"] ∧
    (RetryNoMatch.geocode_unique
        (fun _ t => if t = 0 then SvcResult.exn "Timeout" else SvcResult.ok [])
        2 ["A"] []).2.2 = 2 ∧
    ¬ ((RetryNoMatch.geocode_unique
        (fun _ t => if t = 0 then SvcResult.exn "Timeout" else SvcResult.ok [])
        2 ["A"] []).2.2 ≤ 1) := by
  refine ⟨rfl, rfl, by decide⟩

/-- C1 (amended): each unique address is geocoded at most once per pipeline
stage, enforced by the cache-membership check.  Stage 1 queries exactly the
`to_do` list, which has no duplicates and excludes every cached address; the
retry stage queries each address at most once (its queried list has no
duplicates and contains no checkpointed address), with at most
`max_retries + 1` network calls per queried address (more than one only when
attempts raise exceptions). -/
theorem geocode_call_discipline :
    (∀ (series : List (Option String)) (initFile : List GeocodeAddresses.GeoRow),
      (GeocodeAddresses.toDoAddrs series initFile).Nodup ∧
      ∀ a ∈ GeocodeAddresses.cacheOnelines initFile,
        a ∉ GeocodeAddresses.toDoAddrs series initFile) ∧
    (∀ (svc : String → Nat → SvcResult) (mr : Nat) (addresses : List String)
        (ckpt : List (String × RetryNoMatch.RVal)),
      (RetryNoMatch.geocode_unique svc mr addresses ckpt).2.1.Nodup ∧
      (∀ a ∈ RetryNoMatch.ckKeys ckpt,
        a ∉ (RetryNoMatch.geocode_unique svc mr addresses ckpt).2.1) ∧
      (RetryNoMatch.geocode_unique svc mr addresses ckpt).2.2 ≤
        (RetryNoMatch.geocode_unique svc mr addresses ckpt).2.1.length * (mr + 1)) := by
  constructor
  · intro series initFile
    exact ⟨GeocodeAddresses.toDoAddrs_nodup series initFile,
      fun a ha => GeocodeAddresses.cached_not_mem_toDoAddrs ha⟩
  · intro svc mr addresses ckpt
    rcases RetryNoMatch.geocodeUniqueGo_queried_spec svc mr addresses ckpt [] 0 with
      ⟨nq, hq, hnd, hdisj, hcalls⟩
    unfold RetryNoMatch.geocode_unique
    refine ⟨?_, ?_, ?_⟩
    · rw [hq]
      simpa using hnd
    · intro a ha hmem
      rw [hq] at hmem
      simp at hmem
      exact (hdisj a hmem) ha
    · rw [hq]
      simpa using hcalls

/-- C1 witness: a cached address is skipped by stage 1, and the concrete
`to_do` list of a fresh run has no duplicates. -/
theorem geocode_call_discipline_witness :
    "A" ∉ GeocodeAddresses.toDoAddrs [some "A"]
      [⟨"A", none, none, none, none, "matched"⟩] :=
  (geocode_call_discipline.1 [some "A"]
    [⟨"A", none, none, none, none, "matched"⟩]).2 "A" (by decide)

/-- C2: geocoding failures never escape a batch loop.  Stage 1 records, for
every address, a status from the catalogue (`matched`, `no_match`,
`no_county`, `error:<ExceptionType>`), records exactly `error:<E>` when the
service raises `E`, and produces one row per `to_do` address no matter what
the service does; the retry stage likewise gives every requested address a
checkpoint entry, and a freshly geocoded one carries a catalogue status. -/
theorem error_handling_spec :
    (∀ (svc : String → SvcResult) (addr : String),
      allowedStatus (GeocodeAddresses.geocodeOne svc addr).status ∧
      ∀ e, svc addr = SvcResult.exn e →
        (GeocodeAddresses.geocodeOne svc addr).status = "error:" ++ e) ∧
    (∀ (svc : String → SvcResult) (series : List (Option String))
        (initFile : List GeocodeAddresses.GeoRow) (k : Nat),
      (GeocodeAddresses.geocode_addresses svc series initFile k).length =
        initFile.length + (GeocodeAddresses.toDoAddrs series initFile).length) ∧
    (∀ (svc : String → Nat → SvcResult) (mr : Nat) (addresses : List String)
        (ckpt : List (String × RetryNoMatch.RVal)) (a : String), a ∈ addresses →
      ∃ v, RetryNoMatch.ckLookup
        (RetryNoMatch.geocode_unique svc mr addresses ckpt).1 a = some v) ∧
    (∀ (svc : String → Nat → SvcResult) (mr : Nat) (addresses : List String)
        (ckpt : List (String × RetryNoMatch.RVal)) (a : String), a ∈ addresses →
      a ∉ RetryNoMatch.ckKeys ckpt →
      ∃ v, RetryNoMatch.ckLookup
          (RetryNoMatch.geocode_unique svc mr addresses ckpt).1 a = some v ∧
        allowedStatus v.status) := by
  refine ⟨?_, ?_, ?_, ?_⟩
  · intro svc addr
    refine ⟨?_, ?_⟩
    · rcases h : svc addr with ms | e
      · unfold GeocodeAddresses.geocodeOne
        rw [h]
        rcases ms with _ | ⟨m, rest⟩
        · exact Or.inr (Or.inl rfl)
        · by_cases ht : truthyStr (GeocodeAddresses.cg_first_county m).1
          · simp only [ht, if_true]
            exact Or.inl rfl
          · simp only [ht, if_false]
            exact Or.inr (Or.inr (Or.inl rfl))
      · unfold GeocodeAddresses.geocodeOne
        rw [h]
        exact Or.inr (Or.inr (Or.inr ⟨e, rfl⟩))
    · intro e he
      unfold GeocodeAddresses.geocodeOne
      rw [he]
  · intro svc series initFile k
    unfold GeocodeAddresses.geocode_addresses
    rw [GeocodeAddresses.geocodeLoop_total]
    simp [List.length_append, List.length_map]
  · intro svc mr addresses ckpt a ha
    exact RetryNoMatch.geocodeUniqueGo_covers svc mr addresses ckpt [] 0 a ha
  · intro svc mr addresses ckpt a ha hnk
    exact RetryNoMatch.geocodeUniqueGo_new_allowed svc mr addresses ckpt [] 0 a ha hnk

/-- C2 witness: a service that raises `Timeout` yields the recorded status
`error:Timeout` in stage 1, and in the retry stage an always-raising service
still leaves a checkpoint entry with a catalogue status for the address. -/
theorem error_handling_spec_witness :
    (GeocodeAddresses.geocodeOne (fun _ => SvcResult.exn "Timeout") "A").status =
      "error:" ++ "Timeout" ∧
    ∃ v, RetryNoMatch.ckLookup
        (RetryNoMatch.geocode_unique (fun _ _ => SvcResult.exn "Boom") 2
          ["A"] []).1 "A" = some v ∧
      allowedStatus v.status :=
  ⟨(error_handling_spec.1 (fun _ => SvcResult.exn "Timeout") "A").2 "Timeout" rfl,
   error_handling_spec.2.2.2 (fun _ _ => SvcResult.exn "Boom") 2 ["A"] [] "A"
     (by decide) (by decide)⟩

/-- C8: caches are append-only and keyed by address.  The stage-1 cache file
only grows during a run — its contents after `j'` processed addresses extend
its contents after `j ≤ j'`, and processing starts from the pre-existing
file — and the retry checkpoint never modifies or removes an existing entry:
a key's value before the run is still its value after. -/
theorem cache_append_only :
    (∀ (svc : String → SvcResult) (series : List (Option String))
        (initFile : List GeocodeAddresses.GeoRow) (k j j' : Nat), j ≤ j' →
      ∃ t, GeocodeAddresses.geocodeFileAfter svc series initFile k j' =
        GeocodeAddresses.geocodeFileAfter svc series initFile k j ++ t) ∧
    (∀ (svc : String → SvcResult) (series : List (Option String))
        (initFile : List GeocodeAddresses.GeoRow) (k : Nat),
      GeocodeAddresses.geocodeFileAfter svc series initFile k 0 = initFile) ∧
    (∀ (svc : String → Nat → SvcResult) (mr : Nat) (addresses : List String)
        (ckpt : List (String × RetryNoMatch.RVal)) (a : String)
        (v : RetryNoMatch.RVal),
      RetryNoMatch.ckLookup ckpt a = some v →
      RetryNoMatch.ckLookup (RetryNoMatch.geocode_unique svc mr addresses ckpt).1 a
        = some v) := by
  refine ⟨?_, ?_, ?_⟩
  · intro svc series initFile k j j' hj
    unfold GeocodeAddresses.geocodeFileAfter
    have hsplit : (GeocodeAddresses.toDoAddrs series initFile).take j' =
        (GeocodeAddresses.toDoAddrs series initFile).take j ++
          ((GeocodeAddresses.toDoAddrs series initFile).drop j).take (j' - j) := by
      rw [← List.take_add]
      congr 1
      omega
    rw [hsplit, GeocodeAddresses.geocodeLoop_append]
    exact GeocodeAddresses.geocodeLoop_file_extend svc k _ _ _
  · intro svc series initFile k
    rfl
  · intro svc mr addresses ckpt a v h
    exact RetryNoMatch.geocodeUniqueGo_lookup_mono svc mr addresses ckpt [] 0 a v h

/-- C8 witness: one concrete flушed step extends the initial (empty) file,
and a pre-existing checkpoint entry survives a retry run over a different
address. -/
theorem cache_append_only_witness :
    (∃ t, GeocodeAddresses.geocodeFileAfter (fun _ => SvcResult.ok [])
        [some "A"] [] 1 1 =
      GeocodeAddresses.geocodeFileAfter (fun _ => SvcResult.ok [])
        [some "A"] [] 1 0 ++ t) ∧
    RetryNoMatch.ckLookup
      (RetryNoMatch.geocode_unique (fun _ _ => SvcResult.ok []) 2 ["B"]
        [("A", ⟨none, none, none, none, "no_match"⟩)]).1 "A" =
      some ⟨none, none, none, none, "no_match"⟩ :=
  ⟨cache_append_only.1 (fun _ => SvcResult.ok []) [some "A"] [] 1 0 1 (by decide),
   cache_append_only.2.2 (fun _ _ => SvcResult.ok []) 2 ["B"]
     [("A", ⟨none, none, none, none, "no_match"⟩)] "A"
     ⟨none, none, none, none, "no_match"⟩ rfl⟩

-- ------------------- C5: retry pass frame conditions -------------------

lemma RetryNoMatch.retryUpdateRow_none {A : List (String × RetryNoMatch.RVal)}
    {r : RetryNoMatch.RRow}
    (hl : RetryNoMatch.ckLookup A (canonicalize_address (pyStr r.oneline)) = none) :
    RetryNoMatch.retryUpdateRow A r = r := by
  unfold RetryNoMatch.retryUpdateRow
  rw [hl]

lemma RetryNoMatch.retryUpdateRow_not_matched {A : List (String × RetryNoMatch.RVal)}
    {r : RetryNoMatch.RRow} {v : RetryNoMatch.RVal}
    (hl : RetryNoMatch.ckLookup A (canonicalize_address (pyStr r.oneline)) = some v)
    (hv : ¬ v.status = "matched") :
    RetryNoMatch.retryUpdateRow A r = r := by
  unfold RetryNoMatch.retryUpdateRow
  rw [hl]
  show (if v.status == "matched" then
    { r with
      county_fips := v.fips
      county_name := v.name
      lat := v.lat
      lon := v.lon
      status := some v.status } else r) = r
  rw [if_neg (by simpa using hv)]

lemma RetryNoMatch.retryUpdateRow_matched {A : List (String × RetryNoMatch.RVal)}
    {r : RetryNoMatch.RRow} {v : RetryNoMatch.RVal}
    (hl : RetryNoMatch.ckLookup A (canonicalize_address (pyStr r.oneline)) = some v)
    (hv : v.status = "matched") :
    RetryNoMatch.retryUpdateRow A r = { r with
      county_fips := v.fips
      county_name := v.name
      lat := v.lat
      lon := v.lon
      status := some v.status } := by
  unfold RetryNoMatch.retryUpdateRow
  rw [hl]
  show (if v.status == "matched" then
    { r with
      county_fips := v.fips
      county_name := v.name
      lat := v.lat
      lon := v.lon
      status := some v.status } else r) = _
  rw [if_pos (by simp [hv])]

/-- C5: `retry_file` touches only unmatched rows.  The output has exactly as
many rows as the input; every matched input row is passed through unchanged;
and every output row is either an input row (originals kept) or an unmatched
input row whose five geocode columns were replaced because the retry result
for its canonicalized address has status `matched`. -/
theorem retry_file_spec (svc : String → Nat → SvcResult) (mr : Nat)
    (df : List RetryNoMatch.RRow) (ckpt : List (String × RetryNoMatch.RVal)) :
    (RetryNoMatch.retry_file svc mr df ckpt).length = df.length ∧
    (∀ r ∈ df, RetryNoMatch.missRow r = false →
      r ∈ RetryNoMatch.retry_file svc mr df ckpt) ∧
    (∀ r' ∈ RetryNoMatch.retry_file svc mr df ckpt,
      r' ∈ df ∨
      ∃ r ∈ df, RetryNoMatch.missRow r = true ∧
        ∃ v, RetryNoMatch.ckLookup (RetryNoMatch.retryAddrMap svc mr df ckpt)
            (canonicalize_address (pyStr r.oneline)) = some v ∧
          v.status = "matched" ∧
          r' = { r with
                 county_fips := v.fips
                 county_name := v.name
                 lat := v.lat
                 lon := v.lon
                 status := some v.status }) := by
  have hrf : RetryNoMatch.retry_file svc mr df ckpt =
      if (df.filter RetryNoMatch.missRow).isEmpty then df
      else df.filter (fun r => ! RetryNoMatch.missRow r) ++
        (df.filter RetryNoMatch.missRow).map
          (RetryNoMatch.retryUpdateRow (RetryNoMatch.retryAddrMap svc mr df ckpt)) := rfl
  by_cases hemp : (df.filter RetryNoMatch.missRow).isEmpty
  · rw [hrf, if_pos hemp]
    exact ⟨rfl, fun r hr _ => hr, fun r' hr' => Or.inl hr'⟩
  · rw [hrf, if_neg hemp]
    refine ⟨?_, ?_, ?_⟩
    · rw [List.length_append, List.length_map]
      have := @List.length_eq_length_filter_add _ df RetryNoMatch.missRow
      omega
    · intro r hr hmiss
      refine List.mem_append.mpr (Or.inl ?_)
      rw [List.mem_filter]
      exact ⟨hr, by rw [hmiss]; rfl⟩
    · intro r' hr'
      rcases List.mem_append.mp hr' with h | h
      · exact Or.inl (List.mem_filter.mp h).1
      · rcases List.mem_map.mp h with ⟨r, hrmem, heq⟩
        have hrdf : r ∈ df := (List.mem_filter.mp hrmem).1
        have hrmiss : RetryNoMatch.missRow r = true := (List.mem_filter.mp hrmem).2
        rcases hl : RetryNoMatch.ckLookup (RetryNoMatch.retryAddrMap svc mr df ckpt)
            (canonicalize_address (pyStr r.oneline)) with _ | v
        · rw [RetryNoMatch.retryUpdateRow_none hl] at heq
          exact Or.inl (heq ▸ hrdf)
        · by_cases hv : v.status = "matched"
          · rw [RetryNoMatch.retryUpdateRow_matched hl hv] at heq
            exact Or.inr ⟨r, hrdf, hrmiss, v, hl, hv, heq.symm⟩
          · rw [RetryNoMatch.retryUpdateRow_not_matched hl hv] at heq
            exact Or.inl (heq ▸ hrdf)

/-- C5 witness: a single already-matched row is passed through unchanged by a
retry run (with an always-empty geocoder), and the row count is preserved. -/
theorem retry_file_spec_witness :
    (RetryNoMatch.retry_file (fun _ _ => SvcResult.ok []) 2
      [⟨some "1", some "A", some "13121", some "Fulton", some "33", some "-84",
        some "matched"⟩] []).length = 1 ∧
    (⟨some "1", some "A", some "13121", some "Fulton", some "33", some "-84",
        some "matched"⟩ : RetryNoMatch.RRow) ∈
      RetryNoMatch.retry_file (fun _ _ => SvcResult.ok []) 2
        [⟨some "1", some "A", some "13121", some "Fulton", some "33", some "-84",
          some "matched"⟩] [] :=
  ⟨(retry_file_spec (fun _ _ => SvcResult.ok []) 2
      [⟨some "1", some "A", some "13121", some "Fulton", some "33", some "-84",
        some "matched"⟩] []).1,
   (retry_file_spec (fun _ _ => SvcResult.ok []) 2
      [⟨some "1", some "A", some "13121", some "Fulton", some "33", some "-84",
        some "matched"⟩] []).2.1 _ (by decide) (by decide)⟩

-- ------------------- zip-fallback model -------------------

namespace ZipFallback

/-- Python `s.startswith(p)` (structural, so that concrete instances
evaluate). -/
def pyStartsWith (s p : String) : Bool := startsWithChars p.toList s.toList

/-- Word-boundary test after a word character (a digit): the next character
must not be a word character, or the string must end. -/
def nonWordNext : List Char → Bool
  | [] => true
  | c :: _ => ! isWordChar c

/-- The regex `(\d{5})(?:-\d{4})?\b` tried at the current position: five
digits, then either the optional `-dddd` group followed by a boundary, or —
when that fails — a boundary right after the five digits (a following `-`
satisfies it, so `12345-678` still yields `12345`).  The returned group is
the five digits. -/
def zipMatchHere (l : List Char) : Option String :=
  match l with
  | d1 :: d2 :: d3 :: d4 :: d5 :: rest =>
    if d1.isDigit && d2.isDigit && d3.isDigit && d4.isDigit && d5.isDigit then
      let ok :=
        (match rest with
          | '-' :: e1 :: e2 :: e3 :: e4 :: rest2 =>
            (e1.isDigit && e2.isDigit && e3.isDigit && e4.isDigit &&
              nonWordNext rest2) || nonWordNext rest
          | _ => nonWordNext rest)
      if ok then some (String.mk [d1, d2, d3, d4, d5]) else none
    else none
  | _ => none

/-- Scan of `re.search`: leftmost position wins. -/
def extractZipGo : List Char → Option String
  | [] => none
  | c :: cs =>
    match zipMatchHere (c :: cs) with
    | some z => some z
    | none => extractZipGo cs

/-- Function `extract_zip5` of 01_zip_fallback.py:
`re.search(r"(\d{5})(?:-\d{4})?\b", str(s))`, group 1. -/
def extract_zip5 (s : String) : Option String := extractZipGo s.toList

/-- The `County` object of an FCC `block/find` response (dict `.get`). -/
structure FccCounty where
  FIPS : Option String
  name : Option String
deriving DecidableEq

/-- Result of the FCC HTTP call: a response carrying the County object, or a
raised exception (network or JSON error). -/
inductive FccResp where
  | ok (county : FccCounty)
  | exn
deriving DecidableEq

/-- Function `fcc_county` of 01_zip_fallback.py: only a truthy FIPS starting
with `"13"` (Georgia) is accepted; a non-Georgia FIPS, a missing county, or a
raised exception yields `(None, None)`.  (Python checks `if fips and
fips.startswith("13")`; an empty string fails `startswith("13")` as well, so
the falsy check is absorbed.) -/
def fcc_county (resp : FccResp) : Option String × Option String :=
  match resp with
  | .exn => (none, none)
  | .ok county =>
    match county.FIPS with
    | some f => if pyStartsWith f "13" then (some f, county.name) else (none, none)
    | none => (none, none)

/-- One value `[fips, name, lat, lon]` of zip_fallback_cache.json. -/
structure ZipVal where
  fips : Option String
  name : Option String
  lat : Option String
  lon : Option String
deriving DecidableEq

/-- Keys of the ZIP cache. -/
def zcKeys (cache : List (String × ZipVal)) : List String := cache.map Prod.fst

/-- `cache.get(z)`. -/
def zcLookup (cache : List (String × ZipVal)) (z : String) : Option ZipVal :=
  (cache.find? (fun p => p.1 == z)).map Prod.snd

/-- Body of the ZIP-resolution loop (lines 79-89): the centroid lookup
(`None, None` on a missing/NaN record), then the FCC lookup only when a
centroid exists; the cache entry stores `[fips, name, lat, lon]` with the
centroid coordinates. -/
def resolveZip (centroid : String → Option (String × String))
    (fcc : String → String → FccResp) (z : String) : ZipVal :=
  match centroid z with
  | none => ⟨none, none, none, none⟩
  | some (la, lo) =>
    let fn := fcc_county (fcc la lo)
    ⟨fn.1, fn.2, some la, some lo⟩

/-- The resolution loop over the `need` list, appending one entry per ZIP. -/
def zipLoop (centroid : String → Option (String × String))
    (fcc : String → String → FccResp) :
    List String → List (String × ZipVal) → List (String × ZipVal)
  | [], cache => cache
  | z :: rest, cache =>
    zipLoop centroid fcc rest (cache ++ [(z, resolveZip centroid fcc z)])

/-- The final ZIP cache of one `apply_zip_fallback` run: the unique ZIP5s of
the unmatched rows (`miss["zip5"].unique()`, first-occurrence order) that are
not yet cached are resolved and appended. -/
def zipFinalCache (centroid : String → Option (String × String))
    (fcc : String → String → FccResp) (df : List RetryNoMatch.RRow)
    (cache₀ : List (String × ZipVal)) : List (String × ZipVal) :=
  zipLoop centroid fcc
    ((RetryNoMatch.uniqueFirst
        ((df.filter RetryNoMatch.missRow).filterMap
          (fun r => extract_zip5 (pyStr r.oneline)))).filter
      (fun z => ! (zcKeys cache₀).contains z))
    cache₀

/-- Per-row effect of `apply_zip_fallback` (lines 100-110) given the final
cache: only an unmatched row with an extractable ZIP whose cached fallback
FIPS is present (`has_ga`) is overwritten — county FIPS and name from the
cache, the centroid as lat/lon, and status `zip_fallback`; every other row is
written through unchanged. -/
def zipUpdateRow (cache : List (String × ZipVal)) (r : RetryNoMatch.RRow) :
    RetryNoMatch.RRow :=
  if RetryNoMatch.missRow r then
    match extract_zip5 (pyStr r.oneline) with
    | some z =>
      match zcLookup cache z with
      | some v =>
        match v.fips with
        | some f =>
          { r with
            county_fips := some f
            county_name := v.name
            lat := v.lat
            lon := v.lon
            status := some "zip_fallback" }
        | none => r
      | none => r
    | none => r
  else r

/-- Function `apply_zip_fallback` of 01_zip_fallback.py: the output rows and
the final cache.  (The early returns for "no unmatched rows" and "no ZIPs
found" write the input unchanged; in those cases the per-row map modifies
nothing, so the same rows are produced.) -/
def apply_zip_fallback (centroid : String → Option (String × String))
    (fcc : String → String → FccResp) (df : List RetryNoMatch.RRow)
    (cache₀ : List (String × ZipVal)) :
    List RetryNoMatch.RRow × List (String × ZipVal) :=
  (df.map (zipUpdateRow (zipFinalCache centroid fcc df cache₀)),
    zipFinalCache centroid fcc df cache₀)

end ZipFallback

namespace ZipFallback

lemma zipUpdateRow_not_miss {cache : List (String × ZipVal)}
    {r : RetryNoMatch.RRow} (h : RetryNoMatch.missRow r = false) :
    zipUpdateRow cache r = r := by
  simp [zipUpdateRow, h]

lemma zipUpdateRow_no_zip {cache : List (String × ZipVal)}
    {r : RetryNoMatch.RRow} (h : extract_zip5 (pyStr r.oneline) = none) :
    zipUpdateRow cache r = r := by
  by_cases hm : RetryNoMatch.missRow r
  · simp [zipUpdateRow, hm, h]
  · simp [zipUpdateRow, hm]

lemma zipUpdateRow_no_entry {cache : List (String × ZipVal)}
    {r : RetryNoMatch.RRow} {z : String}
    (hz : extract_zip5 (pyStr r.oneline) = some z)
    (hl : zcLookup cache z = none) :
    zipUpdateRow cache r = r := by
  by_cases hm : RetryNoMatch.missRow r
  · simp [zipUpdateRow, hm, hz, hl]
  · simp [zipUpdateRow, hm]

lemma zipUpdateRow_no_fips {cache : List (String × ZipVal)}
    {r : RetryNoMatch.RRow} {z : String} {v : ZipVal}
    (hz : extract_zip5 (pyStr r.oneline) = some z)
    (hl : zcLookup cache z = some v) (hf : v.fips = none) :
    zipUpdateRow cache r = r := by
  by_cases hm : RetryNoMatch.missRow r
  · simp [zipUpdateRow, hm, hz, hl, hf]
  · simp [zipUpdateRow, hm]

lemma zipUpdateRow_hit {cache : List (String × ZipVal)}
    {r : RetryNoMatch.RRow} {z : String} {v : ZipVal} {f : String}
    (hm : RetryNoMatch.missRow r = true)
    (hz : extract_zip5 (pyStr r.oneline) = some z)
    (hl : zcLookup cache z = some v) (hf : v.fips = some f) :
    zipUpdateRow cache r = { r with
      county_fips := some f
      county_name := v.name
      lat := v.lat
      lon := v.lon
      status := some "zip_fallback" } := by
  simp [zipUpdateRow, hm, hz, hl, hf]

/-- Well-formedness of the ZIP cache: every stored FIPS starts with `13`. -/
def zcWF (cache : List (String × ZipVal)) : Prop :=
  ∀ p ∈ cache, ∀ f, p.2.fips = some f → pyStartsWith f "13" = true

lemma fcc_county_ga (resp : FccResp) :
    ∀ f, (fcc_county resp).1 = some f → pyStartsWith f "13" = true := by
  intro f hf
  rcases resp with county | _
  · rcases county with ⟨fips?, name?⟩
    rcases fips? with _ | g
    · simp [fcc_county] at hf
    · by_cases hs : pyStartsWith g "13"
      · simp [fcc_county, hs] at hf
        rw [← hf]
        exact hs
      · simp [fcc_county, hs] at hf
  · simp [fcc_county] at hf

lemma resolveZip_ga (centroid : String → Option (String × String))
    (fcc : String → String → FccResp) (z : String) :
    ∀ f, (resolveZip centroid fcc z).fips = some f → pyStartsWith f "13" = true := by
  intro f hf
  unfold resolveZip at hf
  rcases hc : centroid z with _ | ⟨la, lo⟩
  · rw [hc] at hf; simp at hf
  · rw [hc] at hf
    exact fcc_county_ga (fcc la lo) f hf

lemma zipLoop_WF (centroid : String → Option (String × String))
    (fcc : String → String → FccResp) :
    ∀ (need : List String) (cache : List (String × ZipVal)),
    zcWF cache → zcWF (zipLoop centroid fcc need cache) := by
  intro need
  induction need with
  | nil => intro cache h; exact h
  | cons z rest ih =>
    intro cache h
    unfold zipLoop
    refine ih _ ?_
    intro p hp f hf
    rcases List.mem_append.mp hp with hp | hp
    · exact h p hp f hf
    · simp at hp
      subst hp
      exact resolveZip_ga centroid fcc z f hf

lemma zcLookup_WF {cache : List (String × ZipVal)} {z : String} {v : ZipVal}
    (hwf : zcWF cache) (hl : zcLookup cache z = some v) :
    ∀ f, v.fips = some f → pyStartsWith f "13" = true := by
  intro f hf
  unfold zcLookup at hl
  rcases hfind : cache.find? (fun p => p.1 == z) with _ | p
  · rw [hfind] at hl; simp at hl
  · rw [hfind] at hl
    simp at hl
    have hp := List.mem_of_find?_eq_some hfind
    exact hwf p hp f (by rw [hl]; exact hf)

end ZipFallback

/-- C4: the ZIP-fallback pass only overwrites rows lacking a prior match.
The output file has one row per input row; a row whose status is `matched`
is written through completely unchanged at its position; and a row can only
change if it was unmatched, has an extractable 5-digit ZIP, and the cache
holds a fallback county FIPS for that ZIP. -/
theorem apply_zip_fallback_frame (centroid : String → Option (String × String))
    (fcc : String → String → ZipFallback.FccResp) (df : List RetryNoMatch.RRow)
    (cache₀ : List (String × ZipFallback.ZipVal)) :
    (ZipFallback.apply_zip_fallback centroid fcc df cache₀).1.length = df.length ∧
    (∀ (i : Nat) (r : RetryNoMatch.RRow), df[i]? = some r →
      r.status = some "matched" →
      (ZipFallback.apply_zip_fallback centroid fcc df cache₀).1[i]? = some r) ∧
    (∀ r : RetryNoMatch.RRow,
      ZipFallback.zipUpdateRow (ZipFallback.zipFinalCache centroid fcc df cache₀) r ≠ r →
      RetryNoMatch.missRow r = true ∧
      ∃ z, ZipFallback.extract_zip5 (pyStr r.oneline) = some z ∧
        ∃ v f, ZipFallback.zcLookup
            (ZipFallback.zipFinalCache centroid fcc df cache₀) z = some v ∧
          v.fips = some f) := by
  refine ⟨?_, ?_, ?_⟩
  · unfold ZipFallback.apply_zip_fallback
    rw [List.length_map]
  · intro i r hi hst
    unfold ZipFallback.apply_zip_fallback
    rw [List.getElem?_map, hi]
    have hm : RetryNoMatch.missRow r = false := by
      unfold RetryNoMatch.missRow
      rw [hst]
      rfl
    rw [Option.map_some']
    rw [ZipFallback.zipUpdateRow_not_miss hm]
  · intro r hne
    by_cases hm : RetryNoMatch.missRow r
    · refine ⟨hm, ?_⟩
      rcases hz : ZipFallback.extract_zip5 (pyStr r.oneline) with _ | z
      · exact absurd (ZipFallback.zipUpdateRow_no_zip hz) hne
      · refine ⟨z, rfl, ?_⟩
        rcases hl : ZipFallback.zcLookup
            (ZipFallback.zipFinalCache centroid fcc df cache₀) z with _ | v
        · exact absurd (ZipFallback.zipUpdateRow_no_entry hz hl) hne
        · rcases hf : v.fips with _ | f
          · exact absurd (ZipFallback.zipUpdateRow_no_fips hz hl hf) hne
          · exact ⟨v, f, rfl, hf⟩
    · exact absurd (ZipFallback.zipUpdateRow_not_miss (by simpa using hm)) hne

/-- C4 witness: a concrete matched row is written through unchanged at its
position by a fallback run with a Georgia-returning FCC oracle. -/
theorem apply_zip_fallback_frame_witness :
    (ZipFallback.apply_zip_fallback (fun _ => some ("33.0", "-84.0"))
        (fun _ _ => ZipFallback.FccResp.ok ⟨some "13121", some "Fulton"⟩)
        [⟨some "1", some "A, 30303", some "13121", some "Fulton", some "33",
          some "-84", some "matched"⟩] []).1[0]? =
      some ⟨some "1", some "A, 30303", some "13121", some "Fulton", some "33",
        some "-84", some "matched"⟩ :=
  (apply_zip_fallback_frame (fun _ => some ("33.0", "-84.0"))
      (fun _ _ => ZipFallback.FccResp.ok ⟨some "13121", some "Fulton"⟩)
      [⟨some "1", some "A, 30303", some "13121", some "Fulton", some "33",
        some "-84", some "matched"⟩] []).2.1 0 _ rfl rfl

/-- C9: assuming every pre-existing cache entry is Georgian (which is exactly
what the code itself writes), the final cache only holds FIPS codes starting
with `13`; every row the fallback pass modifies receives such a FIPS and the
status `zip_fallback`; and an unmatched row whose ZIP resolved without an
accepted Georgia FIPS is left unchanged. -/
theorem zip_fallback_georgia (centroid : String → Option (String × String))
    (fcc : String → String → ZipFallback.FccResp) (df : List RetryNoMatch.RRow)
    (cache₀ : List (String × ZipFallback.ZipVal))
    (hwf : ZipFallback.zcWF cache₀) :
    ZipFallback.zcWF (ZipFallback.zipFinalCache centroid fcc df cache₀) ∧
    (∀ r : RetryNoMatch.RRow,
      ZipFallback.zipUpdateRow (ZipFallback.zipFinalCache centroid fcc df cache₀) r ≠ r →
      ∃ f, (ZipFallback.zipUpdateRow
          (ZipFallback.zipFinalCache centroid fcc df cache₀) r).county_fips = some f ∧
        ZipFallback.pyStartsWith f "13" = true ∧
        (ZipFallback.zipUpdateRow
          (ZipFallback.zipFinalCache centroid fcc df cache₀) r).status =
            some "zip_fallback") ∧
    (∀ (r : RetryNoMatch.RRow) (z : String), RetryNoMatch.missRow r = true →
      ZipFallback.extract_zip5 (pyStr r.oneline) = some z →
      (∀ v, ZipFallback.zcLookup
          (ZipFallback.zipFinalCache centroid fcc df cache₀) z = some v →
        v.fips = none) →
      ZipFallback.zipUpdateRow (ZipFallback.zipFinalCache centroid fcc df cache₀) r = r) := by
  have hwf' : ZipFallback.zcWF (ZipFallback.zipFinalCache centroid fcc df cache₀) :=
    ZipFallback.zipLoop_WF centroid fcc _ cache₀ hwf
  refine ⟨hwf', ?_, ?_⟩
  · intro r hne
    by_cases hm : RetryNoMatch.missRow r
    · rcases hz : ZipFallback.extract_zip5 (pyStr r.oneline) with _ | z
      · exact absurd (ZipFallback.zipUpdateRow_no_zip hz) hne
      · rcases hl : ZipFallback.zcLookup
            (ZipFallback.zipFinalCache centroid fcc df cache₀) z with _ | v
        · exact absurd (ZipFallback.zipUpdateRow_no_entry hz hl) hne
        · rcases hf : v.fips with _ | f
          · exact absurd (ZipFallback.zipUpdateRow_no_fips hz hl hf) hne
          · rw [ZipFallback.zipUpdateRow_hit hm hz hl hf]
            exact ⟨f, rfl, ZipFallback.zcLookup_WF hwf' hl f hf, rfl⟩
    · exact absurd (ZipFallback.zipUpdateRow_not_miss (by simpa using hm)) hne
  · intro r z hm hz hnone
    rcases hl : ZipFallback.zcLookup
        (ZipFallback.zipFinalCache centroid fcc df cache₀) z with _ | v
    · exact ZipFallback.zipUpdateRow_no_entry hz hl
    · exact ZipFallback.zipUpdateRow_no_fips hz hl (hnone v hl)

/-- C9 witness: with an empty initial cache, a run over one unmatched row
with ZIP 30303 and a Fulton-county FCC oracle modifies that row to carry
FIPS `13121` (which starts with `13`) and status `zip_fallback`. -/
theorem zip_fallback_georgia_witness :
    ∃ f, (ZipFallback.zipUpdateRow
        (ZipFallback.zipFinalCache (fun _ => some ("33.0", "-84.0"))
          (fun _ _ => ZipFallback.FccResp.ok ⟨some "13121", some "Fulton"⟩)
          [⟨some "1", some "A, 30303", none, none, none, none, some "no_match"⟩] [])
        ⟨some "1", some "A, 30303", none, none, none, none, some "no_match"⟩).county_fips =
      some f ∧
      ZipFallback.pyStartsWith f "13" = true ∧
      (ZipFallback.zipUpdateRow
        (ZipFallback.zipFinalCache (fun _ => some ("33.0", "-84.0"))
          (fun _ _ => ZipFallback.FccResp.ok ⟨some "13121", some "Fulton"⟩)
          [⟨some "1", some "A, 30303", none, none, none, none, some "no_match"⟩] [])
        ⟨some "1", some "A, 30303", none, none, none, none, some "no_match"⟩).status =
      some "zip_fallback" :=
  (zip_fallback_georgia (fun _ => some ("33.0", "-84.0"))
      (fun _ _ => ZipFallback.FccResp.ok ⟨some "13121", some "Fulton"⟩)
      [⟨some "1", some "A, 30303", none, none, none, none, some "no_match"⟩] []
      (by intro p hp; simp at hp)).2.1
    ⟨some "1", some "A, 30303", none, none, none, none, some "no_match"⟩
    (by decide)

-- ------------------- C10: build_oneline -------------------

/-- C10: `build_oneline` omits any address line that, after cleaning, starts
with `PO BOX` or `P.O. BOX` (uppercased); it always includes a state
component, substituting `GA` when the state field cleans to empty; and when
the ZIP field contains five consecutive digits, exactly the first such group
is appended as the final component.  The last conjunct ties the component
list to the returned `", "`-joined string. -/
theorem build_oneline_spec (addr1 addr2 city state zipcode : Option String) :
    (isPoBox (clean_str addr1).toList = true →
      onelineParts addr1 addr2 city state zipcode =
        onelineParts none addr2 city state zipcode) ∧
    (isPoBox (clean_str addr2).toList = true →
      onelineParts addr1 addr2 city state zipcode =
        onelineParts addr1 none city state zipcode) ∧
    ((if clean_str state = "" then "GA" else clean_str state) ∈
      onelineParts addr1 addr2 city state zipcode) ∧
    (clean_str state = "" → "GA" ∈ onelineParts addr1 addr2 city state zipcode) ∧
    (∀ m, clean_str zipcode ≠ "" →
      firstFiveDigits (clean_str zipcode).toList = some m →
      onelineParts addr1 addr2 city state zipcode =
        onelineParts addr1 addr2 city state none ++ [String.mk m] ∧
      (onelineParts addr1 addr2 city state zipcode).getLast? =
        some (String.mk m)) ∧
    build_oneline addr1 addr2 city state zipcode =
      String.intercalate ", " (onelineParts addr1 addr2 city state zipcode) := by
  have hlinePo : ∀ p : Option String, isPoBox (clean_str p).toList = true →
      lineParts p = [] := by
    intro p hp
    unfold lineParts
    rw [if_neg]
    intro hc
    exact Bool.noConfusion (hp.symm.trans hc.2)
  have hlineNone : lineParts none = [] := rfl
  have hzipNone : zipParts none = [] := rfl
  have hmem : (if clean_str state = "" then "GA" else clean_str state) ∈
      onelineParts addr1 addr2 city state zipcode := by
    unfold onelineParts
    exact List.mem_append.mpr (Or.inl (List.mem_append.mpr (Or.inr
      (List.mem_cons_self _ _))))
  refine ⟨?_, ?_, hmem, ?_, ?_, rfl⟩
  · intro h
    unfold onelineParts
    rw [hlinePo addr1 h, hlineNone]
  · intro h
    unfold onelineParts
    rw [hlinePo addr2 h, hlineNone]
  · intro hst
    rw [if_pos hst] at hmem
    exact hmem
  · intro m hz hm
    have hzip : zipParts zipcode = [String.mk m] := by
      unfold zipParts
      rw [if_pos hz, hm]
    have hexpr : onelineParts addr1 addr2 city state zipcode =
        onelineParts addr1 addr2 city state none ++ [String.mk m] := by
      unfold onelineParts
      rw [hzip, hzipNone, List.append_nil]
    refine ⟨hexpr, ?_⟩
    rw [hexpr, List.getLast?_append_of_ne_nil _ (by simp)]
    rfl

/-- C10 witness: a PO-box first line contributes nothing, and the empty state
field is replaced by `GA`. -/
theorem build_oneline_spec_witness :
    onelineParts (some "PO Box 12") (some "1 Main St") (some "Atlanta")
        (some "") (some "30303") =
      onelineParts none (some "1 Main St") (some "Atlanta")
        (some "") (some "30303") ∧
    "GA" ∈ onelineParts (some "PO Box 12") (some "1 Main St") (some "Atlanta")
      (some "") (some "30303") :=
  ⟨(build_oneline_spec (some "PO Box 12") (some "1 Main St") (some "Atlanta")
      (some "") (some "30303")).1 (by decide),
   (build_oneline_spec (some "PO Box 12") (some "1 Main St") (some "Atlanta")
      (some "") (some "30303")).2.2.2.1 (by decide)⟩
